import Mathlib

/-!
# Verification of the insider-league-manager simulation core

Shallow embedding of the league-simulation engine of the repository
`edorika/insider-league-manager` (Go): the double round-robin fixture
generator, the strength-weighted match simulator, the standings ledger and
the season controller, together with proofs of the specification's claims
about them.

Conventions of the embedding:
* Go `int` values are modelled as `Int`; array/list indices as `Nat`.
* Go `float64` goal expectancies are modelled as `ℚ` (every constant of the
  source — 1.5, 0.5, 3.0, x/100 at the band boundaries — is exact in both).
* `rand.Intn(100)` draws are passed in explicitly as `Nat` arguments.
* the SQL tables behind `database.Service` are modelled as a `DB` record:
  row updates with a `WHERE` key become pointwise function updates, and SQL
  `UPDATE ... SET col = col + x` reads old column values on the right-hand
  side, exactly as the queries in `league_operations.go` do.
* handlers that can reject a request return `Except String DB`; in the Go
  code the rejecting branches run before any database write, so an `error`
  result leaves the database exactly as it was.
-/

namespace InsiderLeague

/-- `models.Team` (internal/models): id, name, strength. -/
structure Team where
  id : Int
  name : String
  strength : Int
deriving Repr, DecidableEq

/-- `models.Match` (internal/models): a fixture row of the `matches` table. -/
structure MatchRec where
  id : Int
  leagueID : Int
  homeTeamID : Int
  awayTeamID : Int
  week : Nat
  status : String
  homeGoals : Option Int
  awayGoals : Option Int
deriving Repr, DecidableEq

/-- A row of the `standings` table (per league and team). -/
structure Standing where
  points : Int
  played : Int
  wins : Int
  draws : Int
  losses : Int
  goalsFor : Int
  goalsAgainst : Int
  goalDifference : Int
deriving Repr, DecidableEq

/-- A row of the `leagues` table (name, status, current_week). -/
structure LeagueRec where
  name : String
  status : String
  currentWeek : Nat
deriving Repr, DecidableEq

/-- The database state the handlers read and write: the `leagues` table,
the `standings` table keyed by (league, team), the `matches` table, and the
`league_teams` membership (as `GetTeamsInLeague` returns it). -/
structure DB where
  leagues : Int → LeagueRec
  standings : Int → Int → Standing
  matchesTable : List MatchRec
  teamsInLeague : Int → List Team

/-- Zero value a fresh `InitializeStanding` row gets. -/
def Standing.zero : Standing :=
  { points := 0, played := 0, wins := 0, draws := 0, losses := 0,
    goalsFor := 0, goalsAgainst := 0, goalDifference := 0 }

/-! ## Fixture generator (league_handlers.go: generateRoundRobinMatches) -/

/-- Zero `models.Team`; Go never reads an out-of-range index here, so this
default is irrelevant (all accesses are proved in range). -/
def defaultTeam : Team := { id := 0, name := "", strength := 0 }

/-- The `BYE` placeholder appended for an odd team count
(`generateRoundRobinMatches`). -/
def byeTeam : Team := { id := -1, name := "BYE", strength := 0 }

/-- `generateRoundMatches(teams, round)`: matches of one first-half round of
the rotation algorithm.  Team 0 is fixed; in round `r` it meets the team at
index `(r+1) % (n-1)` (mapped to `n-1` when that is 0); slot `i ≥ 1` pairs
index `((r - i + n - 1) % (n-1)) + 1` (home) with `((r + i) % (n-1)) + 1`
(away); for odd rounds the non-anchor pairs swap home and away.
`round - i + n - 1` is non-negative in Go since `i ≤ n/2 - 1`; written here
as `round + (n - 1) - i` with the same value. -/
def generateRoundMatches (teams : List Team) (round : Nat) : List MatchRec :=
  let n := teams.length
  (List.range (n / 2)).map (fun i =>
    let p : Team × Team :=
      if i = 0 then
        let awayIndex := (round + 1) % (n - 1)
        let awayIndex := if awayIndex = 0 then n - 1 else awayIndex
        (teams.getD 0 defaultTeam, teams.getD awayIndex defaultTeam)
      else
        let homeIndex := (round + (n - 1) - i) % (n - 1) + 1
        let awayIndex := (round + i) % (n - 1) + 1
        (teams.getD homeIndex defaultTeam, teams.getD awayIndex defaultTeam)
    let p := if round % 2 = 1 ∧ i ≠ 0 then (p.2, p.1) else p
    { id := 0, leagueID := 0, homeTeamID := p.1.id, awayTeamID := p.2.id,
      week := 0, status := "", homeGoals := none, awayGoals := none })

/-- `generateRoundRobinMatches(teams, leagueID)`: the full double round-robin.
Odd team counts get the `BYE` placeholder; each first-half round becomes one
week (skipping BYE fixtures); the second half mirrors every first-half
fixture with home/away swapped, `n-1` weeks later. -/
def generateRoundRobinMatches (teams0 : List Team) (leagueID : Int) : List MatchRec :=
  let n0 := teams0.length
  if n0 < 2 then []
  else
    let teams := if n0 % 2 = 1 then teams0 ++ [byeTeam] else teams0
    let n := teams.length
    let firstHalfMatches := (List.range (n - 1)).flatMap (fun round =>
      ((generateRoundMatches teams round).filter
          (fun m => ¬(m.homeTeamID = -1 ∨ m.awayTeamID = -1))).map
        (fun m => { m with leagueID := leagueID, week := round + 1, status := "scheduled" }))
    let firstHalfWeeks := n - 1
    firstHalfMatches ++ firstHalfMatches.map (fun m =>
      { id := 0, leagueID := leagueID,
        homeTeamID := m.awayTeamID, awayTeamID := m.homeTeamID,
        week := m.week + firstHalfWeeks, status := "scheduled",
        homeGoals := none, awayGoals := none })

/-- `calculateTotalWeeks(numTeams)` (league_handlers.go). -/
def calculateTotalWeeks (numTeams : Nat) : Nat :=
  if numTeams < 2 then 0 else 2 * (numTeams - 1)

/-! ## Standings ledger (league_operations.go: UpdateStandings) -/

/-- The eight per-match increments `UpdateStandings` computes before its two
`UPDATE` statements: home/away points, wins, draws and losses. -/
structure Deltas where
  homePoints : Int
  awayPoints : Int
  homeWins : Int
  homeDraws : Int
  homeLosses : Int
  awayWins : Int
  awayDraws : Int
  awayLosses : Int

/-- The outcome classification at the top of `UpdateStandings`: home win when
`homeGoals > awayGoals` (3/0 points, W/L), away win when `<`, draw when
equal (1/1, D/D); unassigned variables stay 0, as in Go. -/
def standingsDeltas (homeGoals awayGoals : Int) : Deltas :=
  if homeGoals > awayGoals then
    { homePoints := 3, awayPoints := 0, homeWins := 1, homeDraws := 0,
      homeLosses := 0, awayWins := 0, awayDraws := 0, awayLosses := 1 }
  else if homeGoals < awayGoals then
    { homePoints := 0, awayPoints := 3, homeWins := 0, homeDraws := 0,
      homeLosses := 1, awayWins := 1, awayDraws := 0, awayLosses := 0 }
  else
    { homePoints := 1, awayPoints := 1, homeWins := 0, homeDraws := 1,
      homeLosses := 0, awayWins := 0, awayDraws := 1, awayLosses := 0 }

/-- One `UPDATE standings SET ...` of `UpdateStandings`, applied to the row it
keys: every column is incremented, and `goal_difference` is recomputed from
the OLD `goals_for`/`goals_against` plus the increments (SQL right-hand
sides read the old row), i.e. it equals new `goals_for` − new
`goals_against`. -/
def applyRowUpdate (s : Standing) (points wins draws losses goalsFor goalsAgainst : Int) :
    Standing :=
  { points := s.points + points
    played := s.played + 1
    wins := s.wins + wins
    draws := s.draws + draws
    losses := s.losses + losses
    goalsFor := s.goalsFor + goalsFor
    goalsAgainst := s.goalsAgainst + goalsAgainst
    goalDifference := s.goalsFor + goalsFor - (s.goalsAgainst + goalsAgainst) }

/-- `UPDATE ... WHERE league_id = l AND team_id = t` touches exactly the row
with that key. -/
def setStanding (f : Int → Int → Standing) (leagueID teamID : Int) (s : Standing) :
    Int → Int → Standing :=
  fun l t => if l = leagueID ∧ t = teamID then s else f l t

/-- The effect of `UpdateStandings` on the standings table: home row updated
first, then the away row (reading the table the home update left). -/
def updateStandingsMap (f : Int → Int → Standing)
    (leagueID homeTeamID awayTeamID homeGoals awayGoals : Int) : Int → Int → Standing :=
  let d := standingsDeltas homeGoals awayGoals
  let f1 := setStanding f leagueID homeTeamID
    (applyRowUpdate (f leagueID homeTeamID)
      d.homePoints d.homeWins d.homeDraws d.homeLosses homeGoals awayGoals)
  setStanding f1 leagueID awayTeamID
    (applyRowUpdate (f1 leagueID awayTeamID)
      d.awayPoints d.awayWins d.awayDraws d.awayLosses awayGoals homeGoals)

/-- `UpdateStandings(ctx, leagueID, homeTeamID, awayTeamID, homeGoals,
awayGoals)` (league_operations.go): classifies the result and updates the two
participating rows; no other table is touched. -/
def UpdateStandings (db : DB) (leagueID homeTeamID awayTeamID homeGoals awayGoals : Int) :
    DB :=
  { db with standings :=
      updateStandingsMap db.standings leagueID homeTeamID awayTeamID homeGoals awayGoals }

/-- Modelled from the spec: the repository wires an edit-match route
(`leaguesEditMatchHandler` in the server) but the `EditMatchHandler` and the
reverse-standings operation it needs are not among the source files.  Per
§4.3 of the spec, `reverse` is "the exact algebraic inverse (decrement the
same fields by the same amounts)" of `apply`; mirroring `applyRowUpdate`,
each column is decremented and `goal_difference` recomputed. -/
def reverseRowUpdate (s : Standing) (points wins draws losses goalsFor goalsAgainst : Int) :
    Standing :=
  { points := s.points - points
    played := s.played - 1
    wins := s.wins - wins
    draws := s.draws - draws
    losses := s.losses - losses
    goalsFor := s.goalsFor - goalsFor
    goalsAgainst := s.goalsAgainst - goalsAgainst
    goalDifference := s.goalsFor - goalsFor - (s.goalsAgainst - goalsAgainst) }

/-- Modelled from the spec (§4.3): the reverse ledger operation on the
standings table, undoing `updateStandingsMap` with the same classification
deltas. -/
def reverseStandingsMap (f : Int → Int → Standing)
    (leagueID homeTeamID awayTeamID homeGoals awayGoals : Int) : Int → Int → Standing :=
  let d := standingsDeltas homeGoals awayGoals
  let f1 := setStanding f leagueID homeTeamID
    (reverseRowUpdate (f leagueID homeTeamID)
      d.homePoints d.homeWins d.homeDraws d.homeLosses homeGoals awayGoals)
  setStanding f1 leagueID awayTeamID
    (reverseRowUpdate (f1 leagueID awayTeamID)
      d.awayPoints d.awayWins d.awayDraws d.awayLosses awayGoals homeGoals)

/-- Modelled from the spec (§4.3): `ReverseStandings` on the database. -/
def ReverseStandings (db : DB) (leagueID homeTeamID awayTeamID homeGoals awayGoals : Int) :
    DB :=
  { db with standings :=
      reverseStandingsMap db.standings leagueID homeTeamID awayTeamID homeGoals awayGoals }

/-- A ledger call on one league's standings: `apply` is `UpdateStandings`,
`reverse` its spec-modelled inverse. -/
inductive LedgerOp where
  | apply (homeTeamID awayTeamID homeGoals awayGoals : Int)
  | reverse (homeTeamID awayTeamID homeGoals awayGoals : Int)

/-- Run one ledger call against the database, on league `leagueID`. -/
def runLedgerOp (leagueID : Int) (db : DB) : LedgerOp → DB
  | .apply h a hg ag => UpdateStandings db leagueID h a hg ag
  | .reverse h a hg ag => ReverseStandings db leagueID h a hg ag

/-- The home team of a ledger call. -/
def LedgerOp.home : LedgerOp → Int
  | .apply h _ _ _ => h
  | .reverse h _ _ _ => h

/-- The away team of a ledger call. -/
def LedgerOp.away : LedgerOp → Int
  | .apply _ a _ _ => a
  | .reverse _ a _ _ => a

/-! ## Match simulator (league_handlers.go: simulateMatch,
generateGoalsFromExpectancy, basicRandomGoals).  `rand.Intn(100)` is passed
in as `randNum`. -/

/-- `generateGoalsFromExpectancy(expectancy)`: three expectancy bands
(≤ 1.0, ≤ 2.0, > 2.0), each a cumulative-probability table over goal counts,
selected by a uniform draw `randNum ∈ [0,100)`. -/
def generateGoalsFromExpectancy (expectancy : ℚ) (randNum : Nat) : Int :=
  if expectancy ≤ 1 then
    if randNum < 50 then 0
    else if randNum < 85 then 1
    else if randNum < 95 then 2
    else 3
  else if expectancy ≤ 2 then
    if randNum < 25 then 0
    else if randNum < 50 then 1
    else if randNum < 75 then 2
    else if randNum < 90 then 3
    else if randNum < 97 then 4
    else 5
  else
    if randNum < 15 then 0
    else if randNum < 30 then 1
    else if randNum < 50 then 2
    else if randNum < 70 then 3
    else if randNum < 85 then 4
    else if randNum < 95 then 5
    else 6

/-- `simulateMatch(homeStrength, awayStrength)`: home advantage 4, strength
difference, expectancy `1.5 ± diff/100` clamped by four sequential `if`s
into [0.5, 3.0], then one independent draw per side. -/
def simulateMatch (homeStrength awayStrength : Int) (r1 r2 : Nat) : Int × Int :=
  let homeAdvantage : Int := 4
  let adjustedHomeStrength := homeStrength + homeAdvantage
  let strengthDiff := adjustedHomeStrength - awayStrength
  let homeGoalExpectancy : ℚ := 3/2 + (strengthDiff : ℚ) / 100
  let awayGoalExpectancy : ℚ := 3/2 - (strengthDiff : ℚ) / 100
  let homeGoalExpectancy := if homeGoalExpectancy < 1/2 then 1/2 else homeGoalExpectancy
  let homeGoalExpectancy := if homeGoalExpectancy > 3 then 3 else homeGoalExpectancy
  let awayGoalExpectancy := if awayGoalExpectancy < 1/2 then 1/2 else awayGoalExpectancy
  let awayGoalExpectancy := if awayGoalExpectancy > 3 then 3 else awayGoalExpectancy
  (generateGoalsFromExpectancy homeGoalExpectancy r1,
   generateGoalsFromExpectancy awayGoalExpectancy r2)

/-- `basicRandomGoals()`: the fallback goal table used when a team lookup
fails in `generateMatchResult`. -/
def basicRandomGoals (randInt : Nat) : Int :=
  if randInt < 30 then 0
  else if randInt < 55 then 1
  else if randInt < 75 then 2
  else if randInt < 90 then 3
  else if randInt < 97 then 4
  else 5

/-- The clamp of an expectancy into [1/2, 3], the spec's reading
("clamped to [0.5, 3.0]") of the four sequential `if`s of `simulateMatch`;
compared against the source definition in the C7 theorem. -/
def expectancyClamp (x : ℚ) : ℚ := max (1/2) (min 3 x)

/-- The expectancy band `generateGoalsFromExpectancy` switches on:
0 for ≤ 1.0, 1 for ≤ 2.0, 2 above. -/
def expectancyBand (x : ℚ) : Nat := if x ≤ 1 then 0 else if x ≤ 2 then 1 else 2

/-! ## Season controller (league_handlers.go: AdvanceWeekHandler,
PlayAllMatchesHandler).  `generateMatchResult`'s ambient randomness is
abstracted as an oracle `sim` giving each fixture its simulated scoreline;
the simulator itself is `simulateMatch` above (claims C7/C8). -/

/-- `GetMatchesByWeekAndLeague` (league_operations.go): all match rows of the
league with that week number, in table order. -/
def matchesByWeekAndLeague (db : DB) (leagueID : Int) (week : Nat) : List MatchRec :=
  db.matchesTable.filter (fun m => m.leagueID = leagueID ∧ m.week = week)

/-- `PlayMatch` (league_operations.go): store the goals on the row with this
id and mark it played. -/
def playMatchRow (db : DB) (matchID homeGoals awayGoals : Int) : DB :=
  { db with matchesTable := db.matchesTable.map (fun m =>
      if m.id = matchID then
        { m with homeGoals := some homeGoals, awayGoals := some awayGoals,
                 status := "played" }
      else m) }

/-- `AdvanceLeagueWeek` (league_operations.go): `current_week + 1` on the
league row. -/
def advanceLeagueWeek (db : DB) (leagueID : Int) : DB :=
  { db with leagues := fun l =>
      if l = leagueID then
        { db.leagues l with currentWeek := (db.leagues l).currentWeek + 1 }
      else db.leagues l }

/-- `UpdateLeagueStatus` (league_operations.go). -/
def updateLeagueStatus (db : DB) (leagueID : Int) (status : String) : DB :=
  { db with leagues := fun l =>
      if l = leagueID then { db.leagues l with status := status }
      else db.leagues l }

/-- One iteration of the match loop shared by `AdvanceWeekHandler` and
`PlayAllMatchesHandler`: simulate, `PlayMatch`, `UpdateStandings`. -/
def playMatchStep (sim : MatchRec → Int × Int) (leagueID : Int) (db : DB) (m : MatchRec) :
    DB :=
  let r := sim m
  UpdateStandings (playMatchRow db m.id r.1 r.2) leagueID m.homeTeamID m.awayTeamID r.1 r.2

/-- `AdvanceWeekHandler` (league_handlers.go), after URL parsing and league
lookup: requires status "started"; plays every fixture of week
`current_week + 1` (error when there are none); advances the week; marks the
league finished when the following week has no fixtures.  Both error branches
run before any database write. -/
def AdvanceWeek (sim : MatchRec → Int × Int) (db : DB) (leagueID : Int) :
    Except String DB :=
  let league := db.leagues leagueID
  if league.status ≠ "started" then
    .error "League must be started to advance weeks"
  else
    let weekToPlay := league.currentWeek + 1
    let ms := matchesByWeekAndLeague db leagueID weekToPlay
    if ms.isEmpty then
      .error "No matches found for the next week. League may be finished."
    else
      let db1 := ms.foldl (playMatchStep sim leagueID) db
      let db2 := advanceLeagueWeek db1 leagueID
      let nextWeekMatches := matchesByWeekAndLeague db2 leagueID (weekToPlay + 1)
      if nextWeekMatches.isEmpty then .ok (updateLeagueStatus db2 leagueID "finished")
      else .ok db2

/-- The week loop of `PlayAllMatchesHandler`: play the given weeks in order,
stopping early at the first week with no fixtures. -/
def playWeeksLoop (sim : MatchRec → Int × Int) (leagueID : Int) (db : DB) :
    List Nat → DB
  | [] => db
  | w :: ws =>
    let ms := matchesByWeekAndLeague db leagueID w
    if ms.isEmpty then db
    else
      let db1 := ms.foldl (playMatchStep sim leagueID) db
      let db2 := advanceLeagueWeek db1 leagueID
      playWeeksLoop sim leagueID db2 ws

/-- `PlayAllMatchesHandler` (league_handlers.go), after URL parsing and
league lookup: requires status "started"; loops the weeks
`current_week + 1 .. calculateTotalWeeks(len(teams))`, playing each and
breaking at the first empty one; then unconditionally marks the league
finished. -/
def PlayAllMatches (sim : MatchRec → Int × Int) (db : DB) (leagueID : Int) :
    Except String DB :=
  let league := db.leagues leagueID
  if league.status ≠ "started" then
    .error "League must be started to play matches"
  else
    let totalWeeks := calculateTotalWeeks (db.teamsInLeague leagueID).length
    let weeks := List.range' (league.currentWeek + 1) (totalWeeks - league.currentWeek)
    let db1 := playWeeksLoop sim leagueID db weeks
    .ok (updateLeagueStatus db1 leagueID "finished")

/-- Modelled from the spec: the server routes POST
/api/leagues/edit-match/:matchID to `EditMatchHandler`, whose implementation
file is absent from the sources.  Per §4.4, `editResult` requires the
fixture's state to be "played", then performs `Ledger.reverse(old result)`,
`Ledger.apply(new result)` and overwrites the stored goals, atomically:
every rejecting branch precedes any write, so an `error` result leaves the
database untouched. -/
def EditMatch (db : DB) (matchID newHomeGoals newAwayGoals : Int) : Except String DB :=
  match db.matchesTable.find? (fun m => m.id = matchID) with
  | none => .error "Match not found"
  | some m =>
    if m.status = "played" then
      match m.homeGoals, m.awayGoals with
      | some oldHG, some oldAG =>
        let db1 := ReverseStandings db m.leagueID m.homeTeamID m.awayTeamID oldHG oldAG
        let db2 := UpdateStandings db1 m.leagueID m.homeTeamID m.awayTeamID
          newHomeGoals newAwayGoals
        .ok (playMatchRow db2 matchID newHomeGoals newAwayGoals)
      | _, _ => .error "Match has no stored result"
    else .error "Match has not been played yet"

/-! ## Champion predictor.  Modelled from the spec (§4.5): the server routes
GET /api/leagues/predict-champion/:leagueID to `PredictChampionHandler`,
whose implementation file is absent from the sources. -/

/-- Modelled from the spec (§4.3 get ordering): `a` ranks strictly before
`b` by points desc, then goal_difference desc, then goals_for desc, then
name asc. -/
def ranksBefore (a b : Team × Standing) : Bool :=
  if a.2.points ≠ b.2.points then b.2.points < a.2.points
  else if a.2.goalDifference ≠ b.2.goalDifference then
    b.2.goalDifference < a.2.goalDifference
  else if a.2.goalsFor ≠ b.2.goalsFor then b.2.goalsFor < a.2.goalsFor
  else a.1.name < b.1.name

/-- Modelled from the spec (§4.5): the team ranked first under the §4.3
order among the given teams, read against one league's standings slice. -/
def champion (st : Int → Standing) : List Team → Option Team
  | [] => none
  | t :: ts =>
    some (ts.foldl
      (fun best u => if ranksBefore (u, st u.id) (best, st best.id) then u else best) t)

/-- Modelled from the spec (§4.5): one remaining fixture inside a trial —
look the two teams up, draw a result via the Match Simulator, apply it to
the trial's private standings copy via the ledger's apply. -/
def simulateFixture (teams : List Team) (draws : Nat × Nat)
    (st : Int → Int → Standing) (m : MatchRec) : Int → Int → Standing :=
  let home := (teams.find? (fun t => t.id = m.homeTeamID)).getD defaultTeam
  let away := (teams.find? (fun t => t.id = m.awayTeamID)).getD defaultTeam
  let g := simulateMatch home.strength away.strength draws.1 draws.2
  updateStandingsMap st m.leagueID m.homeTeamID m.awayTeamID g.1 g.2

/-- Modelled from the spec (§4.5): the fixed Monte-Carlo trial count. -/
def trialCount : Nat := 10000

/-- Modelled from the spec (§4.5): one Monte-Carlo trial — simulate every
remaining fixture in order onto a private copy of the standings, then take
the champion under the §4.3 order. -/
def runTrial (teams : List Team) (st0 : Int → Int → Standing) (leagueID : Int)
    (remaining : List MatchRec) (draws : Nat → Nat × Nat) : Option Team :=
  let final := remaining.enum.foldl
    (fun st im => simulateFixture teams (draws im.1) st im.2) st0
  champion (final leagueID) teams

/-- Modelled from the spec (§4.5): `predict` — 10,000 independent trials
over the remaining fixtures (trial `k` uses the draw stream `draws k`), each
tallying its champion; a team's probability is its tally over the trial
count. -/
def predictChampion (teams : List Team) (st : Int → Int → Standing) (leagueID : Int)
    (remaining : List MatchRec) (draws : Nat → Nat → Nat × Nat) (t : Team) : ℚ :=
  (((List.range trialCount).countP (fun k =>
      runTrial teams st leagueID remaining (draws k) = some t)) : ℚ) / trialCount

/-! ## Index form of the rotation (proof scaffolding for the round-robin
claims).  These are the index computations of `generateRoundMatches`,
written as functions of the list length `n`, the round and the slot. -/

/-- The home index read in slot `i` of round `r` (before the odd-round
swap). -/
def slotHome (n r i : Nat) : Nat :=
  if i = 0 then 0 else (r + (n - 1) - i) % (n - 1) + 1

/-- The away index read in slot `i` of round `r` (before the odd-round
swap). -/
def slotAway (n r i : Nat) : Nat :=
  if i = 0 then
    (if (r + 1) % (n - 1) = 0 then n - 1 else (r + 1) % (n - 1))
  else (r + i) % (n - 1) + 1

/-- The home index after the odd-round swap of `generateRoundMatches`. -/
def slotHomeSw (n r i : Nat) : Nat :=
  if r % 2 = 1 ∧ i ≠ 0 then slotAway n r i else slotHome n r i

/-- The away index after the odd-round swap. -/
def slotAwaySw (n r i : Nat) : Nat :=
  if r % 2 = 1 ∧ i ≠ 0 then slotHome n r i else slotAway n r i

/-- Unordered equality of index pairs. -/
abbrev upair (a b c d : Nat) : Prop := (a = c ∧ b = d) ∨ (a = d ∧ b = c)

/-- The fixture built in slot `i` of round `r` by `generateRoundMatches`,
expressed through the slot index functions. -/
def slotMatch (teams : List Team) (r i : Nat) : MatchRec :=
  { id := 0, leagueID := 0,
    homeTeamID := (teams.getD (slotHomeSw teams.length r i) defaultTeam).id,
    awayTeamID := (teams.getD (slotAwaySw teams.length r i) defaultTeam).id,
    week := 0, status := "", homeGoals := none, awayGoals := none }

/-- The padded team list of `generateRoundRobinMatches` (its `teams` local):
the `BYE` placeholder is appended when the team count is odd. -/
def paddedTeams (teams0 : List Team) : List Team :=
  if teams0.length % 2 = 1 then teams0 ++ [byeTeam] else teams0

/-- The first-half fixture list of `generateRoundRobinMatches` (its
`firstHalfMatches` local), for the already padded team list. -/
def firstHalfMatches (teams : List Team) (leagueID : Int) : List MatchRec :=
  (List.range (teams.length - 1)).flatMap (fun round =>
    ((generateRoundMatches teams round).filter
        (fun m => ¬(m.homeTeamID = -1 ∨ m.awayTeamID = -1))).map
      (fun m => { m with leagueID := leagueID, week := round + 1, status := "scheduled" }))

/-- The second-half mirroring map of `generateRoundRobinMatches`. -/
def mirrorMatch (leagueID : Int) (firstHalfWeeks : Nat) (m : MatchRec) : MatchRec :=
  { id := 0, leagueID := leagueID, homeTeamID := m.awayTeamID,
    awayTeamID := m.homeTeamID, week := m.week + firstHalfWeeks,
    status := "scheduled", homeGoals := none, awayGoals := none }

/-! ## Concrete states used by witnesses and counterexamples -/

/-- A small concrete database: one league (id 1) in status "started" at
week 0, two teams, two fixtures. -/
def sampleDB : DB :=
  { leagues := fun _ => { name := "L", status := "started", currentWeek := 0 }
    standings := fun _ _ => Standing.zero
    matchesTable :=
      [ { id := 1, leagueID := 1, homeTeamID := 10, awayTeamID := 20, week := 1,
          status := "scheduled", homeGoals := none, awayGoals := none },
        { id := 2, leagueID := 1, homeTeamID := 20, awayTeamID := 10, week := 2,
          status := "scheduled", homeGoals := none, awayGoals := none } ]
    teamsInLeague := fun _ =>
      [ { id := 10, name := "A", strength := 60 }, { id := 20, name := "B", strength := 40 } ] }

/-- A fixed scoreline oracle for the witnesses: every match ends 2–1. -/
def sampleSim : MatchRec → Int × Int := fun _ => (2, 1)

/-- A standings table whose rows all have `goal_difference` consistent with
`goals_for − goals_against` except team 2 of league 1, whose row claims
`goal_difference = 0` while `goals_for = 5, goals_against = 0`.  The
goal differences still sum to 0 over {1, 2}. -/
def skewDB : DB :=
  { leagues := fun _ => { name := "L", status := "started", currentWeek := 0 }
    standings := fun l t =>
      if l = 1 ∧ t = 2 then
        { points := 0, played := 0, wins := 0, draws := 0, losses := 0,
          goalsFor := 5, goalsAgainst := 0, goalDifference := 0 }
      else Standing.zero
    matchesTable := []
    teamsInLeague := fun _ => [] }

/-- Three concrete teams, for the odd-team-count schedules. -/
def teamsOdd : List Team :=
  [ { id := 1, name := "A", strength := 88 }, { id := 2, name := "B", strength := 86 },
    { id := 3, name := "C", strength := 84 } ]

/-- Four concrete teams, §8's example scenario strengths. -/
def teamsEven : List Team :=
  [ { id := 1, name := "A", strength := 88 }, { id := 2, name := "B", strength := 86 },
    { id := 3, name := "C", strength := 84 }, { id := 4, name := "D", strength := 82 } ]

/-- A constant draw stream for the predictor witnesses. -/
def sampleDraws : Nat → Nat → Nat × Nat := fun _ _ => (0, 0)

/-- A standings table for the predictor witness: team 1 leads on points. -/
def sampleStandingsW : Int → Int → Standing := fun _ t =>
  if t = 1 then { Standing.zero with points := 3 } else Standing.zero

/-- A started 3-team league whose fixtures are exactly the generated double
round-robin for `teamsOdd` (ids assigned in creation order), as
`StartLeagueHandler` persists them. -/
def oddLeagueDB : DB :=
  { leagues := fun _ => { name := "L", status := "started", currentWeek := 0 }
    standings := fun _ _ => Standing.zero
    matchesTable := (generateRoundRobinMatches teamsOdd 1).enum.map
      (fun im => { im.2 with id := (im.1 : Int) + 1 })
    teamsInLeague := fun _ => teamsOdd }

/-! ## Row-level lemmas about the standings ledger -/

theorem setStanding_self (f : Int → Int → Standing) (L t : Int) (s : Standing) :
    setStanding f L t s L t = s := by
  simp [setStanding]

theorem setStanding_other (f : Int → Int → Standing) (L t : Int) (s : Standing)
    {l' t' : Int} (h : ¬(l' = L ∧ t' = t)) : setStanding f L t s l' t' = f l' t' := by
  simp only [setStanding, if_neg h]

theorem updateStandingsMap_home (f : Int → Int → Standing) (L h a hg ag : Int)
    (hne : h ≠ a) :
    updateStandingsMap f L h a hg ag L h =
      applyRowUpdate (f L h) (standingsDeltas hg ag).homePoints
        (standingsDeltas hg ag).homeWins (standingsDeltas hg ag).homeDraws
        (standingsDeltas hg ag).homeLosses hg ag := by
  simp [updateStandingsMap, setStanding, hne]

theorem updateStandingsMap_away (f : Int → Int → Standing) (L h a hg ag : Int)
    (hne : h ≠ a) :
    updateStandingsMap f L h a hg ag L a =
      applyRowUpdate (f L a) (standingsDeltas hg ag).awayPoints
        (standingsDeltas hg ag).awayWins (standingsDeltas hg ag).awayDraws
        (standingsDeltas hg ag).awayLosses ag hg := by
  have : a ≠ h := fun e => hne e.symm
  simp [updateStandingsMap, setStanding, this]

theorem updateStandingsMap_other (f : Int → Int → Standing) (L h a hg ag : Int)
    {l t : Int} (h1 : ¬(l = L ∧ t = h)) (h2 : ¬(l = L ∧ t = a)) :
    updateStandingsMap f L h a hg ag l t = f l t := by
  simp only [updateStandingsMap, setStanding, if_neg h1, if_neg h2]

theorem reverseStandingsMap_other (f : Int → Int → Standing) (L h a hg ag : Int)
    {l t : Int} (h1 : ¬(l = L ∧ t = h)) (h2 : ¬(l = L ∧ t = a)) :
    reverseStandingsMap f L h a hg ag l t = f l t := by
  simp only [reverseStandingsMap, setStanding, if_neg h1, if_neg h2]

theorem reverseStandingsMap_home (f : Int → Int → Standing) (L h a hg ag : Int)
    (hne : h ≠ a) :
    reverseStandingsMap f L h a hg ag L h =
      reverseRowUpdate (f L h) (standingsDeltas hg ag).homePoints
        (standingsDeltas hg ag).homeWins (standingsDeltas hg ag).homeDraws
        (standingsDeltas hg ag).homeLosses hg ag := by
  simp [reverseStandingsMap, setStanding, hne]

theorem reverseStandingsMap_away (f : Int → Int → Standing) (L h a hg ag : Int)
    (hne : h ≠ a) :
    reverseStandingsMap f L h a hg ag L a =
      reverseRowUpdate (f L a) (standingsDeltas hg ag).awayPoints
        (standingsDeltas hg ag).awayWins (standingsDeltas hg ag).awayDraws
        (standingsDeltas hg ag).awayLosses ag hg := by
  have : a ≠ h := fun e => hne e.symm
  simp [reverseStandingsMap, setStanding, this]

theorem updateStandingsMap_selfKey (f : Int → Int → Standing) (L t hg ag : Int) :
    updateStandingsMap f L t t hg ag L t =
      applyRowUpdate
        (applyRowUpdate (f L t) (standingsDeltas hg ag).homePoints
          (standingsDeltas hg ag).homeWins (standingsDeltas hg ag).homeDraws
          (standingsDeltas hg ag).homeLosses hg ag)
        (standingsDeltas hg ag).awayPoints (standingsDeltas hg ag).awayWins
        (standingsDeltas hg ag).awayDraws (standingsDeltas hg ag).awayLosses ag hg := by
  simp [updateStandingsMap, setStanding]

theorem reverseStandingsMap_selfKey (f : Int → Int → Standing) (L t hg ag : Int) :
    reverseStandingsMap f L t t hg ag L t =
      reverseRowUpdate
        (reverseRowUpdate (f L t) (standingsDeltas hg ag).homePoints
          (standingsDeltas hg ag).homeWins (standingsDeltas hg ag).homeDraws
          (standingsDeltas hg ag).homeLosses hg ag)
        (standingsDeltas hg ag).awayPoints (standingsDeltas hg ag).awayWins
        (standingsDeltas hg ag).awayDraws (standingsDeltas hg ag).awayLosses ag hg := by
  simp [reverseStandingsMap, setStanding]

/-- **C2.**  For every standings state and recorded result between two
distinct teams, `UpdateStandings` classifies the outcome (home win on
`homeGoals > awayGoals` with 3/0 points and W/L, away win on `<`, draw on
equality with 1 point and a draw each); for both participating rows it
increments `played` by 1, exactly the one matching field among
wins/draws/losses, adds the match goals to `goals_for`/`goals_against`, and
leaves `goal_difference` equal to `goals_for − goals_against`. -/
theorem updateStandings_per_match_effect (db : DB) (L h a hg ag : Int) (hne : h ≠ a) :
    (((UpdateStandings db L h a hg ag).standings L h).played
        = (db.standings L h).played + 1 ∧
      ((UpdateStandings db L h a hg ag).standings L a).played
        = (db.standings L a).played + 1) ∧
    (((UpdateStandings db L h a hg ag).standings L h).goalsFor
        = (db.standings L h).goalsFor + hg ∧
      ((UpdateStandings db L h a hg ag).standings L h).goalsAgainst
        = (db.standings L h).goalsAgainst + ag ∧
      ((UpdateStandings db L h a hg ag).standings L a).goalsFor
        = (db.standings L a).goalsFor + ag ∧
      ((UpdateStandings db L h a hg ag).standings L a).goalsAgainst
        = (db.standings L a).goalsAgainst + hg) ∧
    (((UpdateStandings db L h a hg ag).standings L h).goalDifference
        = ((UpdateStandings db L h a hg ag).standings L h).goalsFor
          - ((UpdateStandings db L h a hg ag).standings L h).goalsAgainst ∧
      ((UpdateStandings db L h a hg ag).standings L a).goalDifference
        = ((UpdateStandings db L h a hg ag).standings L a).goalsFor
          - ((UpdateStandings db L h a hg ag).standings L a).goalsAgainst) ∧
    (hg > ag →
      ((UpdateStandings db L h a hg ag).standings L h).points
          = (db.standings L h).points + 3 ∧
        ((UpdateStandings db L h a hg ag).standings L a).points
          = (db.standings L a).points ∧
        ((UpdateStandings db L h a hg ag).standings L h).wins
          = (db.standings L h).wins + 1 ∧
        ((UpdateStandings db L h a hg ag).standings L h).draws
          = (db.standings L h).draws ∧
        ((UpdateStandings db L h a hg ag).standings L h).losses
          = (db.standings L h).losses ∧
        ((UpdateStandings db L h a hg ag).standings L a).losses
          = (db.standings L a).losses + 1 ∧
        ((UpdateStandings db L h a hg ag).standings L a).wins
          = (db.standings L a).wins ∧
        ((UpdateStandings db L h a hg ag).standings L a).draws
          = (db.standings L a).draws) ∧
    (hg < ag →
      ((UpdateStandings db L h a hg ag).standings L h).points
          = (db.standings L h).points ∧
        ((UpdateStandings db L h a hg ag).standings L a).points
          = (db.standings L a).points + 3 ∧
        ((UpdateStandings db L h a hg ag).standings L h).losses
          = (db.standings L h).losses + 1 ∧
        ((UpdateStandings db L h a hg ag).standings L h).wins
          = (db.standings L h).wins ∧
        ((UpdateStandings db L h a hg ag).standings L h).draws
          = (db.standings L h).draws ∧
        ((UpdateStandings db L h a hg ag).standings L a).wins
          = (db.standings L a).wins + 1 ∧
        ((UpdateStandings db L h a hg ag).standings L a).draws
          = (db.standings L a).draws ∧
        ((UpdateStandings db L h a hg ag).standings L a).losses
          = (db.standings L a).losses) ∧
    (hg = ag →
      ((UpdateStandings db L h a hg ag).standings L h).points
          = (db.standings L h).points + 1 ∧
        ((UpdateStandings db L h a hg ag).standings L a).points
          = (db.standings L a).points + 1 ∧
        ((UpdateStandings db L h a hg ag).standings L h).draws
          = (db.standings L h).draws + 1 ∧
        ((UpdateStandings db L h a hg ag).standings L h).wins
          = (db.standings L h).wins ∧
        ((UpdateStandings db L h a hg ag).standings L h).losses
          = (db.standings L h).losses ∧
        ((UpdateStandings db L h a hg ag).standings L a).draws
          = (db.standings L a).draws + 1 ∧
        ((UpdateStandings db L h a hg ag).standings L a).wins
          = (db.standings L a).wins ∧
        ((UpdateStandings db L h a hg ag).standings L a).losses
          = (db.standings L a).losses) := by
  have hh := updateStandingsMap_home db.standings L h a hg ag hne
  have ha := updateStandingsMap_away db.standings L h a hg ag hne
  simp only [UpdateStandings] at *
  rw [hh, ha]
  rcases lt_trichotomy hg ag with hlt | heq | hgt
  · simp [applyRowUpdate, standingsDeltas, hlt, not_lt_of_gt hlt, ne_of_lt hlt]
  · simp [applyRowUpdate, standingsDeltas, heq]
  · simp [applyRowUpdate, standingsDeltas, hgt, not_lt_of_gt hgt, ne_of_gt hgt]

theorem updateStandings_per_match_effect_witness :
    ((10 : Int) ≠ 20) ∧
      ((UpdateStandings sampleDB 1 10 20 2 1).standings 1 10).played
        = (sampleDB.standings 1 10).played + 1 ∧
      ((UpdateStandings sampleDB 1 10 20 2 1).standings 1 10).points
        = (sampleDB.standings 1 10).points + 3 :=
  ⟨by decide,
    (updateStandings_per_match_effect sampleDB 1 10 20 2 1 (by decide)).1.1,
    ((updateStandings_per_match_effect sampleDB 1 10 20 2 1 (by decide)).2.2.2.1
      (by decide)).1⟩

/-- **C10.**  `UpdateStandings(league, home, away, ...)` modifies only the
two standings rows keyed `(league, home)` and `(league, away)`: every other
standings row, every match row, the league rows (status and current_week)
and the league membership are unchanged. -/
theorem updateStandings_frame (db : DB) (L h a hg ag : Int) (l t : Int)
    (h1 : ¬(l = L ∧ t = h)) (h2 : ¬(l = L ∧ t = a)) :
    (UpdateStandings db L h a hg ag).standings l t = db.standings l t ∧
    (UpdateStandings db L h a hg ag).matchesTable = db.matchesTable ∧
    (UpdateStandings db L h a hg ag).leagues = db.leagues ∧
    (UpdateStandings db L h a hg ag).teamsInLeague = db.teamsInLeague := by
  refine ⟨?_, rfl, rfl, rfl⟩
  simpa only [UpdateStandings] using
    updateStandingsMap_other db.standings L h a hg ag h1 h2

/-! ## Simulator lemmas (C7, C8) -/

theorem generateGoalsFromExpectancy_bounds (e : ℚ) (r : Nat) :
    0 ≤ generateGoalsFromExpectancy e r ∧ generateGoalsFromExpectancy e r ≤ 6 := by
  unfold generateGoalsFromExpectancy
  split_ifs <;> norm_num

theorem basicRandomGoals_bounds (r : Nat) :
    0 ≤ basicRandomGoals r ∧ basicRandomGoals r ≤ 6 := by
  unfold basicRandomGoals
  split_ifs <;> norm_num

/-- The four sequential `if`s of `simulateMatch` are the clamp into
[1/2, 3]. -/
theorem clamp_chain (x : ℚ) :
    (if (if x < 1/2 then (1/2 : ℚ) else x) > 3 then (3 : ℚ)
     else (if x < 1/2 then (1/2 : ℚ) else x)) = expectancyClamp x := by
  unfold expectancyClamp
  split_ifs with h1 h2 h3 <;> rw [max_def, min_def] <;> split_ifs <;>
    first | rfl | linarith

/-- The goal count depends on the expectancy only through its band. -/
theorem generateGoalsFromExpectancy_band (e e' : ℚ) (r : Nat)
    (h : expectancyBand e = expectancyBand e') :
    generateGoalsFromExpectancy e r = generateGoalsFromExpectancy e' r := by
  unfold expectancyBand at h
  unfold generateGoalsFromExpectancy
  by_cases a1 : e ≤ 1 <;> by_cases a2 : e' ≤ 1
  · rw [if_pos a1, if_pos a2]
  · rw [if_pos a1, if_neg a2] at h
    by_cases a4 : e' ≤ 2
    · rw [if_pos a4] at h
      exact absurd h (by decide)
    · rw [if_neg a4] at h
      exact absurd h (by decide)
  · rw [if_neg a1, if_pos a2] at h
    by_cases a3 : e ≤ 2
    · rw [if_pos a3] at h
      exact absurd h (by decide)
    · rw [if_neg a3] at h
      exact absurd h (by decide)
  · rw [if_neg a1, if_neg a2] at h ⊢
    by_cases a3 : e ≤ 2 <;> by_cases a4 : e' ≤ 2
    · rw [if_pos a3, if_pos a4]
    · rw [if_pos a3, if_neg a4] at h
      exact absurd h (by decide)
    · rw [if_neg a3, if_pos a4] at h
      exact absurd h (by decide)
    · rw [if_neg a3, if_neg a4]

/-- `simulateMatch` in closed clamp form. -/
theorem simulateMatch_eq (hs as : Int) (r1 r2 : Nat) :
    simulateMatch hs as r1 r2 =
      (generateGoalsFromExpectancy
          (expectancyClamp (3/2 + ((hs + 4 - as : Int) : ℚ) / 100)) r1,
        generateGoalsFromExpectancy
          (expectancyClamp (3/2 - ((hs + 4 - as : Int) : ℚ) / 100)) r2) := by
  unfold simulateMatch
  dsimp only
  rw [clamp_chain, clamp_chain]

/-- **C7.**  The simulator adds a home-advantage bonus of exactly 4 to the
home strength, computes `diff = (home+4) − away`, gives the home side
expectancy `1.5 + diff/100` and the away side `1.5 − diff/100`, clamps each
into [0.5, 3.0], and maps each side's expectancy independently to goals via
the three bands ≤ 1.0, ≤ 2.0, > 2.0 selected by the uniform draw in
[0, 100): the output depends on the expectancy only through its band. -/
theorem simulateMatch_structure (hs as : Int) (r1 r2 : Nat) (e e' : ℚ) (r : Nat)
    (hband : expectancyBand e = expectancyBand e') :
    simulateMatch hs as r1 r2 =
      (generateGoalsFromExpectancy
          (expectancyClamp (3/2 + ((hs + 4 - as : Int) : ℚ) / 100)) r1,
        generateGoalsFromExpectancy
          (expectancyClamp (3/2 - ((hs + 4 - as : Int) : ℚ) / 100)) r2) ∧
    (∀ x : ℚ, 1/2 ≤ expectancyClamp x ∧ expectancyClamp x ≤ 3) ∧
    generateGoalsFromExpectancy e r = generateGoalsFromExpectancy e' r := by
  refine ⟨simulateMatch_eq hs as r1 r2, ?_, ?_⟩
  · intro x
    constructor
    · exact le_max_left _ _
    · exact max_le (by norm_num) (min_le_left _ _)
  · exact generateGoalsFromExpectancy_band e e' r hband

theorem simulateMatch_structure_witness :
    expectancyBand (5/4) = expectancyBand (5/4) ∧
      simulateMatch 88 82 10 90 =
        (generateGoalsFromExpectancy
            (expectancyClamp (3/2 + ((88 + 4 - 82 : Int) : ℚ) / 100)) 10,
          generateGoalsFromExpectancy
            (expectancyClamp (3/2 - ((88 + 4 - 82 : Int) : ℚ) / 100)) 90) ∧
      generateGoalsFromExpectancy (5/4) 55 = generateGoalsFromExpectancy (5/4) 55 :=
  ⟨rfl,
    (simulateMatch_structure 88 82 10 90 (5/4) (5/4) 55 rfl).1,
    (simulateMatch_structure 88 82 10 90 (5/4) (5/4) 55 rfl).2.2⟩

/-- **C8.**  For strengths in [0, 100] and any draws in [0, 100), both goal
counts of the simulator are integers in [0, 6], and the same bound holds on
the `basicRandomGoals` fallback path. -/
theorem simulateMatch_goals_bounded (hs as : Int) (r1 r2 : Nat)
    (_hhs0 : 0 ≤ hs) (_hhs1 : hs ≤ 100) (_has0 : 0 ≤ as) (_has1 : as ≤ 100)
    (_hr1 : r1 < 100) (_hr2 : r2 < 100) :
    (0 ≤ (simulateMatch hs as r1 r2).1 ∧ (simulateMatch hs as r1 r2).1 ≤ 6) ∧
    (0 ≤ (simulateMatch hs as r1 r2).2 ∧ (simulateMatch hs as r1 r2).2 ≤ 6) ∧
    (0 ≤ basicRandomGoals r1 ∧ basicRandomGoals r1 ≤ 6) := by
  rw [simulateMatch_eq]
  exact ⟨generateGoalsFromExpectancy_bounds _ r1,
    generateGoalsFromExpectancy_bounds _ r2, basicRandomGoals_bounds r1⟩

theorem simulateMatch_goals_bounded_witness :
    ((0 : Int) ≤ 88 ∧ (88 : Int) ≤ 100 ∧ (0 : Int) ≤ 82 ∧ (82 : Int) ≤ 100) ∧
      (0 ≤ (simulateMatch 88 82 10 90).1 ∧ (simulateMatch 88 82 10 90).1 ≤ 6) :=
  ⟨by decide,
    (simulateMatch_goals_bounded 88 82 10 90 (by decide) (by decide) (by decide)
      (by decide) (by decide) (by decide)).1⟩

/-! ## Edit correctness (C4) -/

/-- Apply-then-reverse-then-apply on one row equals the second apply alone:
the counters cancel and the final apply recomputes `goal_difference` from
`goals_for`/`goals_against`. -/
theorem row_apply_reverse_apply (s : Standing) (p w d l gf ga p2 w2 d2 l2 gf2 ga2 : Int) :
    applyRowUpdate (reverseRowUpdate (applyRowUpdate s p w d l gf ga) p w d l gf ga)
        p2 w2 d2 l2 gf2 ga2 =
      applyRowUpdate s p2 w2 d2 l2 gf2 ga2 := by
  simp only [applyRowUpdate, reverseRowUpdate, Standing.mk.injEq]
  refine ⟨?_, ?_, ?_, ?_, ?_, ?_, ?_, ?_⟩ <;> ring

/-- The six-update chain on a single row, for a match whose home and away
team key the same row, also reduces to the two new applies alone. -/
theorem row_selfKey_apply_reverse_apply (s : Standing)
    (p1 w1 d1 l1 p2 w2 d2 l2 q1 x1 y1 z1 q2 x2 y2 z2 og1 og2 ng1 ng2 : Int) :
    applyRowUpdate (applyRowUpdate
      (reverseRowUpdate (reverseRowUpdate
        (applyRowUpdate (applyRowUpdate s p1 w1 d1 l1 og1 og2) p2 w2 d2 l2 og2 og1)
        p1 w1 d1 l1 og1 og2) p2 w2 d2 l2 og2 og1)
      q1 x1 y1 z1 ng1 ng2) q2 x2 y2 z2 ng2 ng1 =
    applyRowUpdate (applyRowUpdate s q1 x1 y1 z1 ng1 ng2) q2 x2 y2 z2 ng2 ng1 := by
  simp only [applyRowUpdate, reverseRowUpdate, Standing.mk.injEq]
  refine ⟨?_, ?_, ?_, ?_, ?_, ?_, ?_, ?_⟩ <;> ring

/-- The standings-table form of edit correctness: reversing an applied
result and applying a new one yields the same table as applying the new
result to the original table. -/
theorem map_apply_reverse_apply (f : Int → Int → Standing) (L h a og1 og2 ng1 ng2 : Int) :
    updateStandingsMap (reverseStandingsMap (updateStandingsMap f L h a og1 og2)
        L h a og1 og2) L h a ng1 ng2 =
      updateStandingsMap f L h a ng1 ng2 := by
  by_cases hha : h = a
  · subst hha
    funext l t
    by_cases hk : l = L ∧ t = h
    · obtain ⟨rfl, rfl⟩ := hk
      rw [updateStandingsMap_selfKey _ l t ng1 ng2,
        reverseStandingsMap_selfKey _ l t og1 og2,
        updateStandingsMap_selfKey _ l t og1 og2,
        updateStandingsMap_selfKey _ l t ng1 ng2]
      apply row_selfKey_apply_reverse_apply
    · rw [updateStandingsMap_other _ L h h ng1 ng2 hk hk,
        reverseStandingsMap_other _ L h h og1 og2 hk hk,
        updateStandingsMap_other _ L h h og1 og2 hk hk,
        updateStandingsMap_other _ L h h ng1 ng2 hk hk]
  · funext l t
    by_cases hk1 : l = L ∧ t = h
    · obtain ⟨rfl, rfl⟩ := hk1
      rw [updateStandingsMap_home _ l t a ng1 ng2 hha,
        reverseStandingsMap_home _ l t a og1 og2 hha,
        updateStandingsMap_home _ l t a og1 og2 hha,
        updateStandingsMap_home _ l t a ng1 ng2 hha]
      apply row_apply_reverse_apply
    · by_cases hk2 : l = L ∧ t = a
      · obtain ⟨rfl, rfl⟩ := hk2
        rw [updateStandingsMap_away _ l h t ng1 ng2 hha,
          reverseStandingsMap_away _ l h t og1 og2 hha,
          updateStandingsMap_away _ l h t og1 og2 hha,
          updateStandingsMap_away _ l h t ng1 ng2 hha]
        apply row_apply_reverse_apply
      · rw [updateStandingsMap_other _ L h a ng1 ng2 hk1 hk2,
          reverseStandingsMap_other _ L h a og1 og2 hk1 hk2,
          updateStandingsMap_other _ L h a og1 og2 hk1 hk2,
          updateStandingsMap_other _ L h a ng1 ng2 hk1 hk2]

/-- **C4.**  (i) For every standings state, applying a result, reversing
it, and applying a new result yields the database that applying the new
result alone would have produced.  (ii) The spec-modelled `editResult`
(`EditMatch`) is all-or-nothing: it either returns `ok` with both the
ledger edit and the fixture's goal overwrite visible together (the standings
equal to reverse-old-then-apply-new, which by (i) equals apply-new-alone on
the pre-old state), or returns an error and performs no write at all. -/
theorem editResult_correct_and_atomic (db : DB) (L h a og1 og2 ng1 ng2 : Int)
    (matchID n1 n2 : Int) :
    UpdateStandings (ReverseStandings (UpdateStandings db L h a og1 og2) L h a og1 og2)
        L h a ng1 ng2 = UpdateStandings db L h a ng1 ng2 ∧
    ((∃ db', EditMatch db matchID n1 n2 = .ok db' ∧
        ∃ m, db.matchesTable.find? (fun x => x.id = matchID) = some m ∧
          m.status = "played" ∧
          ∃ oh oa, m.homeGoals = some oh ∧ m.awayGoals = some oa ∧
            db' = playMatchRow
              (UpdateStandings
                (ReverseStandings db m.leagueID m.homeTeamID m.awayTeamID oh oa)
                m.leagueID m.homeTeamID m.awayTeamID n1 n2)
              matchID n1 n2) ∨
      (∃ e, EditMatch db matchID n1 n2 = .error e)) := by
  constructor
  · obtain ⟨lg, stn, mt, til⟩ := db
    simp only [UpdateStandings, ReverseStandings]
    rw [map_apply_reverse_apply]
  · rcases hfind : db.matchesTable.find? (fun x => x.id = matchID) with _ | m
    · exact Or.inr ⟨_, by rw [EditMatch, hfind]⟩
    · by_cases hst : m.status = "played"
      · rcases hg1 : m.homeGoals with _ | oh
        · refine Or.inr ⟨"Match has no stored result", ?_⟩
          rw [EditMatch, hfind]
          dsimp only
          rw [if_pos hst, hg1]
        · rcases hg2 : m.awayGoals with _ | oa
          · refine Or.inr ⟨"Match has no stored result", ?_⟩
            rw [EditMatch, hfind]
            dsimp only
            rw [if_pos hst, hg1, hg2]
          · refine Or.inl ⟨_, ?_, m, hfind, hst, oh, oa, hg1, hg2, rfl⟩
            rw [EditMatch, hfind]
            dsimp only
            rw [if_pos hst, hg1, hg2]
      · refine Or.inr ⟨"Match has not been played yet", ?_⟩
        rw [EditMatch, hfind]
        dsimp only
        rw [if_neg hst]

/-! ## Zero-sum goal difference (C3) -/

/-- A row produced by `applyRowUpdate` is consistent:
`goal_difference = goals_for − goals_against`. -/
theorem applyRowUpdate_consistent (s : Standing) (p w d l gf ga : Int) :
    (applyRowUpdate s p w d l gf ga).goalDifference =
      (applyRowUpdate s p w d l gf ga).goalsFor
        - (applyRowUpdate s p w d l gf ga).goalsAgainst := by
  simp [applyRowUpdate]

/-- A row produced by `reverseRowUpdate` is consistent. -/
theorem reverseRowUpdate_consistent (s : Standing) (p w d l gf ga : Int) :
    (reverseRowUpdate s p w d l gf ga).goalDifference =
      (reverseRowUpdate s p w d l gf ga).goalsFor
        - (reverseRowUpdate s p w d l gf ga).goalsAgainst := by
  simp [reverseRowUpdate]

/-- After `updateStandingsMap`, every row is either freshly recomputed
(hence consistent) or untouched. -/
theorem updateStandingsMap_row_cases (f : Int → Int → Standing)
    (L h a hg ag l t : Int) :
    ((updateStandingsMap f L h a hg ag l t).goalDifference =
        (updateStandingsMap f L h a hg ag l t).goalsFor
          - (updateStandingsMap f L h a hg ag l t).goalsAgainst) ∨
      updateStandingsMap f L h a hg ag l t = f l t := by
  by_cases c2 : l = L ∧ t = a
  · left
    obtain ⟨rfl, rfl⟩ := c2
    simp only [updateStandingsMap, setStanding_self]
    exact applyRowUpdate_consistent _ _ _ _ _ _ _
  · by_cases c1 : l = L ∧ t = h
    · left
      obtain ⟨rfl, rfl⟩ := c1
      simp only [updateStandingsMap, setStanding_other _ _ _ _ c2, setStanding_self]
      exact applyRowUpdate_consistent _ _ _ _ _ _ _
    · right
      exact updateStandingsMap_other f L h a hg ag c1 c2

/-- After `reverseStandingsMap`, every row is either freshly recomputed or
untouched. -/
theorem reverseStandingsMap_row_cases (f : Int → Int → Standing)
    (L h a hg ag l t : Int) :
    ((reverseStandingsMap f L h a hg ag l t).goalDifference =
        (reverseStandingsMap f L h a hg ag l t).goalsFor
          - (reverseStandingsMap f L h a hg ag l t).goalsAgainst) ∨
      reverseStandingsMap f L h a hg ag l t = f l t := by
  by_cases c2 : l = L ∧ t = a
  · left
    obtain ⟨rfl, rfl⟩ := c2
    simp only [reverseStandingsMap, setStanding_self]
    exact reverseRowUpdate_consistent _ _ _ _ _ _ _
  · by_cases c1 : l = L ∧ t = h
    · left
      obtain ⟨rfl, rfl⟩ := c1
      simp only [reverseStandingsMap, setStanding_other _ _ _ _ c2, setStanding_self]
      exact reverseRowUpdate_consistent _ _ _ _ _ _ _
    · right
      exact reverseStandingsMap_other f L h a hg ag c1 c2

/-- On consistent rows, `updateStandingsMap` preserves the league's total
goal difference. -/
theorem updateStandingsMap_sum_gd (f : Int → Int → Standing) (L h a hg ag : Int)
    (T : Finset Int) (hh : h ∈ T) (ha : a ∈ T)
    (hch : (f L h).goalDifference = (f L h).goalsFor - (f L h).goalsAgainst)
    (hca : (f L a).goalDifference = (f L a).goalsFor - (f L a).goalsAgainst) :
    ∑ t in T, (updateStandingsMap f L h a hg ag L t).goalDifference =
      ∑ t in T, (f L t).goalDifference := by
  by_cases hha : h = a
  · subst hha
    rw [← Finset.add_sum_erase _ _ hh,
      ← Finset.add_sum_erase _ (fun t => (f L t).goalDifference) hh]
    have hrest : ∑ t in T.erase h, (updateStandingsMap f L h h hg ag L t).goalDifference =
        ∑ t in T.erase h, (f L t).goalDifference := by
      refine Finset.sum_congr rfl fun t ht => ?_
      have hth : ¬(t = h) := (Finset.mem_erase.1 ht).1
      rw [updateStandingsMap_other f L h h hg ag (by simp [hth]) (by simp [hth])]
    rw [hrest, updateStandingsMap_selfKey]
    simp only [applyRowUpdate]
    omega
  · rw [← Finset.add_sum_erase _ _ ha,
      ← Finset.add_sum_erase _ (fun t => (f L t).goalDifference) ha]
    have hh' : h ∈ T.erase a := Finset.mem_erase.2 ⟨hha, hh⟩
    rw [← Finset.add_sum_erase _ _ hh',
      ← Finset.add_sum_erase _ (fun t => (f L t).goalDifference) hh']
    have hrest : ∑ t in (T.erase a).erase h,
        (updateStandingsMap f L h a hg ag L t).goalDifference =
        ∑ t in (T.erase a).erase h, (f L t).goalDifference := by
      refine Finset.sum_congr rfl fun t ht => ?_
      have hth : ¬(t = h) := (Finset.mem_erase.1 ht).1
      have hta : ¬(t = a) := (Finset.mem_erase.1 (Finset.mem_erase.1 ht).2).1
      rw [updateStandingsMap_other f L h a hg ag (by simp [hth]) (by simp [hta])]
    rw [hrest, updateStandingsMap_home f L h a hg ag hha,
      updateStandingsMap_away f L h a hg ag hha]
    simp only [applyRowUpdate]
    omega

/-- On consistent rows, `reverseStandingsMap` preserves the league's total
goal difference. -/
theorem reverseStandingsMap_sum_gd (f : Int → Int → Standing) (L h a hg ag : Int)
    (T : Finset Int) (hh : h ∈ T) (ha : a ∈ T)
    (hch : (f L h).goalDifference = (f L h).goalsFor - (f L h).goalsAgainst)
    (hca : (f L a).goalDifference = (f L a).goalsFor - (f L a).goalsAgainst) :
    ∑ t in T, (reverseStandingsMap f L h a hg ag L t).goalDifference =
      ∑ t in T, (f L t).goalDifference := by
  by_cases hha : h = a
  · subst hha
    rw [← Finset.add_sum_erase _ _ hh,
      ← Finset.add_sum_erase _ (fun t => (f L t).goalDifference) hh]
    have hrest : ∑ t in T.erase h, (reverseStandingsMap f L h h hg ag L t).goalDifference =
        ∑ t in T.erase h, (f L t).goalDifference := by
      refine Finset.sum_congr rfl fun t ht => ?_
      have hth : ¬(t = h) := (Finset.mem_erase.1 ht).1
      rw [reverseStandingsMap_other f L h h hg ag (by simp [hth]) (by simp [hth])]
    rw [hrest, reverseStandingsMap_selfKey]
    simp only [reverseRowUpdate]
    omega
  · rw [← Finset.add_sum_erase _ _ ha,
      ← Finset.add_sum_erase _ (fun t => (f L t).goalDifference) ha]
    have hh' : h ∈ T.erase a := Finset.mem_erase.2 ⟨hha, hh⟩
    rw [← Finset.add_sum_erase _ _ hh',
      ← Finset.add_sum_erase _ (fun t => (f L t).goalDifference) hh']
    have hrest : ∑ t in (T.erase a).erase h,
        (reverseStandingsMap f L h a hg ag L t).goalDifference =
        ∑ t in (T.erase a).erase h, (f L t).goalDifference := by
      refine Finset.sum_congr rfl fun t ht => ?_
      have hth : ¬(t = h) := (Finset.mem_erase.1 ht).1
      have hta : ¬(t = a) := (Finset.mem_erase.1 (Finset.mem_erase.1 ht).2).1
      rw [reverseStandingsMap_other f L h a hg ag (by simp [hth]) (by simp [hta])]
    rw [hrest, reverseStandingsMap_home f L h a hg ag hha,
      reverseStandingsMap_away f L h a hg ag hha]
    simp only [reverseRowUpdate]
    omega

/-- One ledger call between members of `T` preserves both row consistency on
`T` and the total goal difference. -/
theorem runLedgerOp_invariant (db : DB) (L : Int) (T : Finset Int) (op : LedgerOp)
    (hh : op.home ∈ T) (ha : op.away ∈ T)
    (hcons : ∀ t ∈ T, (db.standings L t).goalDifference =
      (db.standings L t).goalsFor - (db.standings L t).goalsAgainst) :
    (∀ t ∈ T, ((runLedgerOp L db op).standings L t).goalDifference =
        ((runLedgerOp L db op).standings L t).goalsFor
          - ((runLedgerOp L db op).standings L t).goalsAgainst) ∧
      ∑ t in T, ((runLedgerOp L db op).standings L t).goalDifference =
        ∑ t in T, (db.standings L t).goalDifference := by
  cases op with
  | apply h a hg ag =>
    refine ⟨fun t ht => ?_, ?_⟩
    · rcases updateStandingsMap_row_cases db.standings L h a hg ag L t with hc | hc
      · exact hc
      · simpa only [runLedgerOp, UpdateStandings, hc] using hcons t ht
    · exact updateStandingsMap_sum_gd db.standings L h a hg ag T hh ha
        (hcons h hh) (hcons a ha)
  | reverse h a hg ag =>
    refine ⟨fun t ht => ?_, ?_⟩
    · rcases reverseStandingsMap_row_cases db.standings L h a hg ag L t with hc | hc
      · exact hc
      · simpa only [runLedgerOp, ReverseStandings, hc] using hcons t ht
    · exact reverseStandingsMap_sum_gd db.standings L h a hg ag T hh ha
        (hcons h hh) (hcons a ha)

/-- The fold of a whole sequence of ledger calls preserves consistency and
the total goal difference. -/
theorem ledger_fold_invariant (L : Int) (T : Finset Int) :
    ∀ (ops : List LedgerOp) (db : DB),
      (∀ op ∈ ops, op.home ∈ T ∧ op.away ∈ T) →
      (∀ t ∈ T, (db.standings L t).goalDifference =
        (db.standings L t).goalsFor - (db.standings L t).goalsAgainst) →
      (∀ t ∈ T, ((ops.foldl (runLedgerOp L) db).standings L t).goalDifference =
          ((ops.foldl (runLedgerOp L) db).standings L t).goalsFor
            - ((ops.foldl (runLedgerOp L) db).standings L t).goalsAgainst) ∧
        ∑ t in T, ((ops.foldl (runLedgerOp L) db).standings L t).goalDifference =
          ∑ t in T, (db.standings L t).goalDifference
  | [], _, _, hcons => ⟨hcons, rfl⟩
  | op :: ops, db, hmem, hcons => by
    have hstep := runLedgerOp_invariant db L T op (hmem op (by simp)).1
      (hmem op (by simp)).2 hcons
    have hrec := ledger_fold_invariant L T ops (runLedgerOp L db op)
      (fun o ho => hmem o (by simp [ho])) hstep.1
    exact ⟨hrec.1, by rw [List.foldl_cons] at *; rw [hrec.2, hstep.2]⟩

/-- **C3 (counterexample).**  As frozen, the claim only assumes the goal
differences sum to 0 at the start.  `skewDB` satisfies that (its sum is 0),
every call of the one-element sequence stays inside the team set {1, 2},
yet one `apply` of a 0–0 draw makes the sum 5: `UpdateStandings` recomputes
`goal_difference` from `goals_for`/`goals_against`, repairing team 2's
inconsistent row and thereby shifting the total. -/
theorem zero_sum_counterexample :
    (∑ t in ({1, 2} : Finset Int), (skewDB.standings 1 t).goalDifference) = 0 ∧
      (∀ op ∈ [LedgerOp.apply 1 2 0 0], op.home ∈ ({1, 2} : Finset Int) ∧
        op.away ∈ ({1, 2} : Finset Int)) ∧
      (∑ t in ({1, 2} : Finset Int),
        (([LedgerOp.apply 1 2 0 0].foldl (runLedgerOp 1) skewDB).standings 1 t).goalDifference)
        ≠ 0 := by
  refine ⟨by decide, by decide, by decide⟩

/-- **C3 (amended).**  For every league whose standings start with every
row's `goal_difference` equal to `goals_for − goals_against` and with the
goal differences summing to 0 over the league's teams (e.g. the all-zero
initial standings), after any sequence of apply and reverse calls between
teams of the league, the sum of `goal_difference` over the league's teams
is exactly 0. -/
theorem zero_sum_invariant (db : DB) (L : Int) (T : Finset Int) (ops : List LedgerOp)
    (hmem : ∀ op ∈ ops, op.home ∈ T ∧ op.away ∈ T)
    (hcons : ∀ t ∈ T, (db.standings L t).goalDifference =
      (db.standings L t).goalsFor - (db.standings L t).goalsAgainst)
    (hsum : ∑ t in T, (db.standings L t).goalDifference = 0) :
    ∑ t in T, ((ops.foldl (runLedgerOp L) db).standings L t).goalDifference = 0 := by
  rw [(ledger_fold_invariant L T ops db hmem hcons).2, hsum]

theorem zero_sum_invariant_witness :
    ∑ t in ({10, 20} : Finset Int),
      (([LedgerOp.apply 10 20 2 1, LedgerOp.reverse 10 20 2 1].foldl
        (runLedgerOp 1) sampleDB).standings 1 t).goalDifference = 0 :=
  zero_sum_invariant sampleDB 1 {10, 20}
    [LedgerOp.apply 10 20 2 1, LedgerOp.reverse 10 20 2 1]
    (by decide) (by decide) (by decide)

/-! ## Season-controller fold lemmas (C5, C6) -/

theorem playMatchStep_leagues (sim : MatchRec → Int × Int) (L : Int) (db : DB)
    (m : MatchRec) : (playMatchStep sim L db m).leagues = db.leagues := rfl

theorem playMatchStep_standings (sim : MatchRec → Int × Int) (L : Int) (db : DB)
    (m : MatchRec) :
    (playMatchStep sim L db m).standings =
      updateStandingsMap db.standings L m.homeTeamID m.awayTeamID
        (sim m).1 (sim m).2 := rfl

theorem playMatchStep_matchesTable (sim : MatchRec → Int × Int) (L : Int) (db : DB)
    (m : MatchRec) :
    (playMatchStep sim L db m).matchesTable =
      db.matchesTable.map (fun x =>
        if x.id = m.id then
          { x with homeGoals := some (sim m).1, awayGoals := some (sim m).2,
                   status := "played" }
        else x) := rfl

theorem foldl_play_leagues (sim : MatchRec → Int × Int) (L : Int) :
    ∀ (ms : List MatchRec) (db : DB),
      (ms.foldl (playMatchStep sim L) db).leagues = db.leagues
  | [], _ => rfl
  | m :: ms, db => by
    rw [List.foldl_cons, foldl_play_leagues sim L ms, playMatchStep_leagues]

theorem foldl_play_standings (sim : MatchRec → Int × Int) (L : Int) :
    ∀ (ms : List MatchRec) (db : DB),
      (ms.foldl (playMatchStep sim L) db).standings =
        ms.foldl (fun st m => updateStandingsMap st L m.homeTeamID m.awayTeamID
          (sim m).1 (sim m).2) db.standings
  | [], _ => rfl
  | m :: ms, db => by
    rw [List.foldl_cons, List.foldl_cons, foldl_play_standings sim L ms,
      playMatchStep_standings]

/-- `find?` by id returns the member itself when the ids are distinct. -/
theorem find?_id_self :
    ∀ (ms : List MatchRec), (ms.map (fun m => m.id)).Nodup →
      ∀ m ∈ ms, ms.find? (fun x => x.id = m.id) = some m
  | [], _, m, hm => absurd hm (by simp)
  | m' :: ms, hnd, m, hm => by
    have hnd1 : m'.id ∉ ms.map (fun x => x.id) := (List.nodup_cons.1 hnd).1
    rcases List.mem_cons.1 hm with rfl | hm'
    · exact List.find?_cons_of_pos _ (by simp)
    · have hne : ¬(m'.id = m.id) := fun he =>
        hnd1 (he ▸ List.mem_map_of_mem (fun x => x.id) hm')
      rw [List.find?_cons_of_neg _ (by simp [hne])]
      exact find?_id_self ms (List.nodup_cons.1 hnd).2 m hm'

/-- The match table after the play loop: every row whose id occurs in the
played list is marked played with its simulated score, every other row is
unchanged. -/
theorem foldl_play_matchesTable (sim : MatchRec → Int × Int) (L : Int) :
    ∀ (ms : List MatchRec) (db : DB), (ms.map (fun m => m.id)).Nodup →
      (ms.foldl (playMatchStep sim L) db).matchesTable =
        db.matchesTable.map (fun x =>
          match ms.find? (fun m => m.id = x.id) with
          | some m => { x with homeGoals := some (sim m).1, awayGoals := some (sim m).2, status := "played" }
          | none => x)
  | [], db, _ => by
    simp [List.find?]
  | m :: ms, db, hnd => by
    have hnd' : (ms.map (fun x => x.id)).Nodup := (List.nodup_cons.1 hnd).2
    have hhead : m.id ∉ ms.map (fun x => x.id) := (List.nodup_cons.1 hnd).1
    rw [List.foldl_cons, foldl_play_matchesTable sim L ms _ hnd',
      playMatchStep_matchesTable, List.map_map]
    refine List.map_congr_left fun x _ => ?_
    by_cases hx : x.id = m.id
    · have h1 : ms.find? (fun mm => mm.id = x.id) = none := by
        rw [List.find?_eq_none]
        intro mm hmm
        simp only [decide_eq_true_eq]
        intro he
        exact hhead (by
          rw [← hx, ← he]
          exact List.mem_map_of_mem (fun y => y.id) hmm)
      simp only [Function.comp_apply, if_pos hx]
      rw [List.find?_cons_of_pos _ (by simp [hx]), h1]
    · simp only [Function.comp_apply, if_neg hx]
      rw [List.find?_cons_of_neg _ (by
        simp only [decide_eq_true_eq]
        exact fun he => hx he.symm)]

/-- Emptiness of a filter is preserved under a predicate-preserving map. -/
theorem filter_map_nil_iff {f : MatchRec → MatchRec} (p : MatchRec → Bool)
    (l : List MatchRec) (hp : ∀ x, p (f x) = p x) :
    (l.map f).filter p = [] ↔ l.filter p = [] := by
  induction l with
  | nil => simp
  | cons x xs ih =>
    simp only [List.map_cons, List.filter_cons, hp x]
    cases hpx : p x
    · simpa using ih
    · simp

/-- The play loop changes no row's league or week, so which weeks are
nonempty is unchanged. -/
theorem matchesByWeek_foldl_nil_iff (sim : MatchRec → Int × Int) (L : Int)
    (ms : List MatchRec) (db : DB) (hnd : (ms.map (fun m => m.id)).Nodup)
    (L' : Int) (wk : Nat) :
    matchesByWeekAndLeague (ms.foldl (playMatchStep sim L) db) L' wk = [] ↔
      matchesByWeekAndLeague db L' wk = [] := by
  rw [matchesByWeekAndLeague, matchesByWeekAndLeague,
    foldl_play_matchesTable sim L ms db hnd]
  refine filter_map_nil_iff _ _ fun x => ?_
  rcases hf : ms.find? (fun mm => mm.id = x.id) with _ | mm <;> rw [hf]

/-- **C5.**  `AdvanceWeekHandler`: errors when the league's status is not
"started" and when no fixtures exist for week `current_week + 1` (in both
error branches the handler has not yet written anything, so the database is
unmodified).  On success it records every fixture of week `current_week + 1`
as played with its simulated scoreline, applies each result to the
standings, increments `current_week` by exactly 1, and sets the status to
"finished" exactly when no fixtures exist for the following week. -/
theorem advanceWeek_spec (sim : MatchRec → Int × Int) (db : DB) (L : Int)
    (hids : (db.matchesTable.map (fun m => m.id)).Nodup) :
    ((db.leagues L).status ≠ "started" →
      AdvanceWeek sim db L = .error "League must be started to advance weeks") ∧
    ((db.leagues L).status = "started" →
      matchesByWeekAndLeague db L ((db.leagues L).currentWeek + 1) = [] →
      AdvanceWeek sim db L =
        .error "No matches found for the next week. League may be finished.") ∧
    ((db.leagues L).status = "started" →
      matchesByWeekAndLeague db L ((db.leagues L).currentWeek + 1) ≠ [] →
      ∃ db', AdvanceWeek sim db L = .ok db' ∧
        (∀ m ∈ db.matchesTable, m.leagueID = L →
          m.week = (db.leagues L).currentWeek + 1 →
          ∃ m' ∈ db'.matchesTable, m'.id = m.id ∧ m'.status = "played" ∧
            m'.homeGoals = some (sim m).1 ∧ m'.awayGoals = some (sim m).2) ∧
        db'.standings =
          (matchesByWeekAndLeague db L ((db.leagues L).currentWeek + 1)).foldl
            (fun st m => updateStandingsMap st L m.homeTeamID m.awayTeamID
              (sim m).1 (sim m).2) db.standings ∧
        (db'.leagues L).currentWeek = (db.leagues L).currentWeek + 1 ∧
        (db'.leagues L).status =
          (if matchesByWeekAndLeague db L ((db.leagues L).currentWeek + 1 + 1) = []
            then "finished" else "started")) := by
  refine ⟨fun hst => ?_, fun hst hempty => ?_, fun hst hne => ?_⟩
  · rw [AdvanceWeek]
    dsimp only
    rw [if_pos hst]
  · rw [AdvanceWeek]
    dsimp only
    rw [if_neg (by simp [hst]), hempty]
    rfl
  · have hmsnd : ((matchesByWeekAndLeague db L ((db.leagues L).currentWeek + 1)).map
        (fun m => m.id)).Nodup :=
      List.Nodup.sublist
        (List.Sublist.map _ (List.filter_sublist db.matchesTable)) hids
    have hAW : AdvanceWeek sim db L =
        (if (matchesByWeekAndLeague
            (advanceLeagueWeek
              ((matchesByWeekAndLeague db L ((db.leagues L).currentWeek + 1)).foldl
                (playMatchStep sim L) db) L) L
            ((db.leagues L).currentWeek + 1 + 1)).isEmpty then
          Except.ok (updateLeagueStatus
            (advanceLeagueWeek
              ((matchesByWeekAndLeague db L ((db.leagues L).currentWeek + 1)).foldl
                (playMatchStep sim L) db) L) L "finished")
        else Except.ok (advanceLeagueWeek
          ((matchesByWeekAndLeague db L ((db.leagues L).currentWeek + 1)).foldl
            (playMatchStep sim L) db) L)) := by
      rw [AdvanceWeek]
      dsimp only
      rw [if_neg (by simp [hst]),
        if_neg (by simpa [List.isEmpty_iff] using hne)]
    have hnextTr : matchesByWeekAndLeague
        (advanceLeagueWeek
          ((matchesByWeekAndLeague db L ((db.leagues L).currentWeek + 1)).foldl
            (playMatchStep sim L) db) L) L ((db.leagues L).currentWeek + 1 + 1) = [] ↔
        matchesByWeekAndLeague db L ((db.leagues L).currentWeek + 1 + 1) = [] :=
      matchesByWeek_foldl_nil_iff sim L _ db hmsnd L _
    have hplayed : ∀ m ∈ db.matchesTable, m.leagueID = L →
        m.week = (db.leagues L).currentWeek + 1 →
        ∃ m' ∈ ((matchesByWeekAndLeague db L ((db.leagues L).currentWeek + 1)).foldl
            (playMatchStep sim L) db).matchesTable, m'.id = m.id ∧
          m'.status = "played" ∧ m'.homeGoals = some (sim m).1 ∧
          m'.awayGoals = some (sim m).2 := by
      intro m hm hlg hwk
      have hmem : m ∈ matchesByWeekAndLeague db L ((db.leagues L).currentWeek + 1) :=
        List.mem_filter.2 ⟨hm, by simp [hlg, hwk]⟩
      rw [foldl_play_matchesTable sim L _ db hmsnd]
      refine ⟨_, List.mem_map_of_mem _ hm, ?_⟩
      rw [find?_id_self _ hmsnd m hmem]
      exact ⟨rfl, rfl, rfl, rfl⟩
    by_cases hnext :
      matchesByWeekAndLeague db L ((db.leagues L).currentWeek + 1 + 1) = []
    · refine ⟨updateLeagueStatus (advanceLeagueWeek
          ((matchesByWeekAndLeague db L ((db.leagues L).currentWeek + 1)).foldl
            (playMatchStep sim L) db) L) L "finished",
        ?_, fun m hm hlg hwk => hplayed m hm hlg hwk, ?_, ?_, ?_⟩
      · rw [hAW, if_pos (by
          simp only [List.isEmpty_iff]
          exact hnextTr.2 hnext)]
      · exact foldl_play_standings sim L _ db
      · simp [updateLeagueStatus, advanceLeagueWeek, foldl_play_leagues]
      · rw [if_pos hnext]
        simp [updateLeagueStatus]
    · refine ⟨advanceLeagueWeek
          ((matchesByWeekAndLeague db L ((db.leagues L).currentWeek + 1)).foldl
            (playMatchStep sim L) db) L,
        ?_, fun m hm hlg hwk => hplayed m hm hlg hwk, ?_, ?_, ?_⟩
      · rw [hAW, if_neg (by
          simp only [List.isEmpty_iff]
          exact fun h => hnext (hnextTr.1 h))]
      · exact foldl_play_standings sim L _ db
      · simp [advanceLeagueWeek, foldl_play_leagues]
      · rw [if_neg hnext]
        simp [advanceLeagueWeek, foldl_play_leagues, hst]

theorem advanceWeek_spec_witness :
    ((sampleDB.matchesTable.map (fun m => m.id)).Nodup) ∧
      (sampleDB.leagues 1).status = "started" ∧
      matchesByWeekAndLeague sampleDB 1 1 ≠ [] ∧
      ∃ db', AdvanceWeek sampleSim sampleDB 1 = .ok db' ∧
        (db'.leagues 1).currentWeek = 1 :=
  ⟨by decide, rfl, by decide, by
    obtain ⟨db', hok, _, _, hcw, _⟩ :=
      (advanceWeek_spec sampleSim sampleDB 1 (by decide)).2.2 rfl (by decide)
    exact ⟨db', hok, hcw⟩⟩

/-- **C6 (failing input).**  `PlayAllMatchesHandler` on a started 3-team
league: `calculateTotalWeeks 3 = 4`, so the week loop stops after week 4,
but the generated schedule of 3 teams spans 6 weeks (the bye round adds one
week per half); the handler then unconditionally marks the league
"finished", leaving the two fixtures of weeks 5 and 6 scheduled — against
both the claim and the league invariant "status=finished ⇒ no unplayed
fixtures remain". -/
theorem playAllMatches_leaves_unplayed :
    (PlayAllMatches sampleSim oddLeagueDB 1).toOption.map
        (fun d => ((d.leagues 1).status,
          d.matchesTable.countP (fun m => m.status = "scheduled"),
          (d.matchesTable.filter (fun m => m.status = "scheduled")).map
            (fun m => m.week))) =
      some ("finished", 2, [5, 6]) := by
  decide

/-! ## Champion predictor lemmas (C9) -/

/-- The best-so-far fold of `champion` returns its accumulator or a list
member. -/
theorem champion_foldl_mem (st : Int → Standing) :
    ∀ (ts : List Team) (b : Team),
      ts.foldl (fun best u =>
        if ranksBefore (u, st u.id) (best, st best.id) then u else best) b = b ∨
      ts.foldl (fun best u =>
        if ranksBefore (u, st u.id) (best, st best.id) then u else best) b ∈ ts
  | [], b => Or.inl rfl
  | u :: ts, b => by
    rw [List.foldl_cons]
    rcases champion_foldl_mem st ts
        (if ranksBefore (u, st u.id) (b, st b.id) then u else b) with h | h
    · rw [h]
      by_cases hc : ranksBefore (u, st u.id) (b, st b.id)
      · rw [if_pos hc]
        exact Or.inr (List.mem_cons_self u ts)
      · rw [if_neg hc]
        exact Or.inl rfl
    · exact Or.inr (List.mem_cons_of_mem u h)

/-- The champion is a member of the team list. -/
theorem champion_mem (st : Int → Standing) (teams : List Team) (t : Team)
    (h : champion st teams = some t) : t ∈ teams := by
  cases teams with
  | nil => exact absurd h (by simp [champion])
  | cons t0 ts =>
    simp only [champion, Option.some.injEq] at h
    subst h
    rcases champion_foldl_mem st ts t0 with hh | hh
    · rw [hh]
      exact List.mem_cons_self t0 ts
    · exact List.mem_cons_of_mem t0 hh

/-- A nonempty team list has a champion. -/
theorem champion_isSome (st : Int → Standing) (teams : List Team)
    (h : teams ≠ []) : ∃ c, champion st teams = some c := by
  cases teams with
  | nil => exact absurd rfl h
  | cons t0 ts => exact ⟨_, rfl⟩

/-- In a duplicate-free list, exactly one member equals a given member. -/
theorem countP_eq_one_of_mem_nodup :
    ∀ (l : List Team), l.Nodup → ∀ c ∈ l, l.countP (fun t => c = t) = 1
  | [], _, c, hc => absurd hc (by simp)
  | t :: ts, hnd, c, hc => by
    rcases List.mem_cons.1 hc with rfl | hc'
    · have hnotin : c ∉ ts := (List.nodup_cons.1 hnd).1
      rw [List.countP_cons]
      have h0 : ts.countP (fun t => c = t) = 0 := by
        rw [List.countP_eq_zero]
        intro u hu
        simp only [decide_eq_true_eq]
        exact fun he => hnotin (he ▸ hu)
      simp [h0]
    · have hne : ¬(c = t) := fun he =>
        (List.nodup_cons.1 hnd).1 (he ▸ hc')
      rw [List.countP_cons]
      simp [hne, countP_eq_one_of_mem_nodup ts (List.nodup_cons.1 hnd).2 c hc']

theorem sum_map_ite_eq_countP (l : List Team) (q : Team → Bool) :
    (l.map (fun t => if q t then (1 : Nat) else 0)).sum = l.countP q := by
  induction l with
  | nil => rfl
  | cons t ts ih =>
    rw [List.map_cons, List.sum_cons, List.countP_cons, ih]
    cases hq : q t <;> simp [hq]
    omega

theorem list_sum_map_add (l : List Team) (f g : Team → Nat) :
    (l.map (fun t => f t + g t)).sum = (l.map f).sum + (l.map g).sum := by
  induction l with
  | nil => rfl
  | cons t ts ih =>
    simp only [List.map_cons, List.sum_cons, ih]
    omega

/-- Double counting: when every trial selects exactly one team, the team
tallies sum to the number of trials. -/
theorem sum_countP_eq_length (l1 : List Team) :
    ∀ (l2 : List Nat) (p : Team → Nat → Bool),
      (∀ k ∈ l2, l1.countP (fun t => p t k) = 1) →
      (l1.map (fun t => l2.countP (fun k => p t k))).sum = l2.length
  | [], p, _ => by simp
  | k :: ks, p, h => by
    have ih := sum_countP_eq_length l1 ks p
      (fun k' hk' => h k' (List.mem_cons_of_mem _ hk'))
    have hk := h k (List.mem_cons_self _ _)
    calc (l1.map (fun t => (k :: ks).countP (fun k' => p t k'))).sum
        = (l1.map (fun t =>
            ks.countP (fun k' => p t k') + (if p t k then 1 else 0))).sum := by
          refine congrArg List.sum (List.map_congr_left fun t _ => ?_)
          rw [List.countP_cons]
      _ = (l1.map (fun t => ks.countP (fun k' => p t k'))).sum
            + (l1.map (fun t => if p t k then (1 : Nat) else 0)).sum :=
          list_sum_map_add l1 _ _
      _ = ks.length + 1 := by rw [ih, sum_map_ite_eq_countP, hk]
      _ = (k :: ks).length := by simp [Nat.add_comm]

theorem list_sum_div (l : List Team) (f : Team → ℚ) (c : ℚ) :
    (l.map (fun t => f t / c)).sum = (l.map f).sum / c := by
  induction l with
  | nil => simp
  | cons t ts ih => simp [ih, add_div]

theorem list_sum_cast (l : List Team) (f : Team → Nat) :
    (l.map (fun t => ((f t : Nat) : ℚ))).sum = (((l.map f).sum : Nat) : ℚ) := by
  induction l with
  | nil => simp
  | cons t ts ih => simp [ih]

/-- **C9.**  The spec-modelled `predict` runs exactly 10,000 Monte-Carlo
trials; its per-team probabilities sum to exactly 1 (hence within the 1e-6
tolerance); and for a league with no remaining fixtures it returns
probability 1 for the team ranked first in the current standings under the
§4.3 order and 0 for every other team. -/
theorem predictChampion_spec (teams : List Team) (st : Int → Int → Standing)
    (L : Int) (remaining : List MatchRec) (draws : Nat → Nat → Nat × Nat)
    (hne : teams ≠ []) (hnd : teams.Nodup) :
    trialCount = 10000 ∧
    (teams.map (fun t => predictChampion teams st L remaining draws t)).sum = 1 ∧
    |(teams.map (fun t => predictChampion teams st L remaining draws t)).sum - 1|
      ≤ 1 / 1000000 ∧
    (remaining = [] → ∀ t,
      (champion (st L) teams = some t →
        predictChampion teams st L remaining draws t = 1) ∧
      (champion (st L) teams ≠ some t →
        predictChampion teams st L remaining draws t = 0)) := by
  have htc : ((trialCount : Nat) : ℚ) ≠ 0 := by norm_num [trialCount]
  have hsum : (teams.map (fun t => predictChampion teams st L remaining draws t)).sum
      = 1 := by
    unfold predictChampion
    rw [list_sum_div, list_sum_cast]
    have hcore : (teams.map (fun t => (List.range trialCount).countP
        (fun k => runTrial teams st L remaining (draws k) = some t))).sum
        = (List.range trialCount).length := by
      refine sum_countP_eq_length teams (List.range trialCount)
        (fun t k => runTrial teams st L remaining (draws k) = some t)
        (fun k _ => ?_)
      obtain ⟨c, hc⟩ := champion_isSome ((remaining.enum.foldl
        (fun st' im => simulateFixture teams (draws k im.1) st' im.2) st) L)
        teams hne
      have hcm : c ∈ teams := champion_mem _ _ _ hc
      have hrt : runTrial teams st L remaining (draws k) = some c := hc
      have h1 : teams.countP
          (fun t => runTrial teams st L remaining (draws k) = some t) =
          teams.countP (fun t => c = t) := by
        refine List.countP_congr fun t _ => ?_
        simp [hrt]
      rw [h1]
      exact countP_eq_one_of_mem_nodup teams hnd c hcm
    rw [hcore, List.length_range, div_self htc]
  refine ⟨rfl, hsum, by rw [hsum]; norm_num, ?_⟩
  intro hrem t
  subst hrem
  have hconst : ∀ k : Nat, runTrial teams st L [] (draws k) =
    champion (st L) teams := fun _ => rfl
  constructor
  · intro hch
    unfold predictChampion
    have hcnt : (List.range trialCount).countP
        (fun k => runTrial teams st L [] (draws k) = some t) = trialCount := by
      rw [List.countP_eq_length.2 fun k _ => by simp [hconst k, hch]]
      exact List.length_range trialCount
    rw [hcnt, div_self htc]
  · intro hch
    unfold predictChampion
    have hcnt : (List.range trialCount).countP
        (fun k => runTrial teams st L [] (draws k) = some t) = 0 := by
      rw [List.countP_eq_zero]
      intro k _
      simp [hconst k, hch]
    rw [hcnt]
    simp

theorem predictChampion_spec_witness :
    teamsEven ≠ [] ∧ teamsEven.Nodup ∧
      champion (sampleStandingsW 1) teamsEven =
        some { id := 1, name := "A", strength := 88 } ∧
      predictChampion teamsEven sampleStandingsW 1 [] sampleDraws
        { id := 1, name := "A", strength := 88 } = 1 :=
  ⟨by decide, by decide, by decide,
    ((predictChampion_spec teamsEven sampleStandingsW 1 [] sampleDraws
      (by decide) (by decide)).2.2.2 rfl _).1 (by decide)⟩

theorem updateStandings_frame_witness :
    (¬((2 : Int) = 1 ∧ (30 : Int) = 10)) ∧
      (UpdateStandings sampleDB 1 10 20 2 1).standings 2 30 = sampleDB.standings 2 30 ∧
      (UpdateStandings sampleDB 1 10 20 2 1).matchesTable = sampleDB.matchesTable :=
  ⟨by decide,
    (updateStandings_frame sampleDB 1 10 20 2 1 2 30 (by decide) (by decide)).1,
    (updateStandings_frame sampleDB 1 10 20 2 1 2 30 (by decide) (by decide)).2.1⟩

/-! ## Round-robin rotation: index-level lemmas (C1) -/

theorem modeq_of_lt_eq {m a b : Nat} (ha : a < m) (hb : b < m)
    (h : Nat.ModEq m a b) : a = b := by
  rwa [Nat.ModEq, Nat.mod_eq_of_lt ha, Nat.mod_eq_of_lt hb] at h

theorem modeq_cancel_two {m r r' : Nat} (hm : m % 2 = 1)
    (h : Nat.ModEq m (2 * r) (2 * r')) : Nat.ModEq m r r' :=
  Nat.ModEq.cancel_left_of_coprime
    (Nat.coprime_two_right.2 (Nat.odd_iff.2 hm)) h

/-- The fixed team's opponent in round `r` is the team at index `r + 1`. -/
theorem slotAway_zero {n r : Nat} (_hn : 2 ≤ n) (hr : r < n - 1) :
    slotAway n r 0 = r + 1 := by
  unfold slotAway
  rw [if_pos rfl]
  rcases Nat.lt_or_ge (r + 1) (n - 1) with h | h
  · rw [Nat.mod_eq_of_lt h, if_neg (by omega)]
  · have he : r + 1 = n - 1 := by omega
    rw [he, Nat.mod_self, if_pos rfl]

theorem slotHome_lt {n r i : Nat} (hn : 2 ≤ n) (_hi : i < n / 2) :
    slotHome n r i < n := by
  unfold slotHome
  split_ifs
  · omega
  · have := Nat.mod_lt (r + (n - 1) - i) (show 0 < n - 1 by omega)
    omega

theorem slotAway_lt {n r i : Nat} (hn : 2 ≤ n) (_hi : i < n / 2) :
    slotAway n r i < n := by
  unfold slotAway
  have h1 := Nat.mod_lt (r + 1) (show 0 < n - 1 by omega)
  have h2 := Nat.mod_lt (r + i) (show 0 < n - 1 by omega)
  split_ifs <;> omega

theorem slotHome_ne_slotAway {n r i : Nat} (hn2 : 2 ≤ n) (hev : n % 2 = 0)
    (hr : r < n - 1) (hi : i < n / 2) :
    slotHome n r i ≠ slotAway n r i := by
  unfold slotHome slotAway
  by_cases h0 : i = 0
  · subst h0
    rw [if_pos rfl, if_pos rfl]
    split_ifs with h <;> omega
  · rw [if_neg h0, if_neg h0]
    intro he
    have hmod : Nat.ModEq (n - 1) (r + (n - 1) - i) (r + i) :=
      Nat.succ_injective he
    have hi1 : 1 ≤ i := Nat.pos_of_ne_zero h0
    have hi2 : 2 * i ≤ n - 2 := by omega
    have hle : r + i ≤ r + (n - 1) - i := by omega
    have hdvd : (n - 1) ∣ (r + (n - 1) - i) - (r + i) :=
      (Nat.modEq_iff_dvd' hle).1 hmod.symm
    have he2 : (r + (n - 1) - i) - (r + i) = (n - 1) - 2 * i := by omega
    rw [he2] at hdvd
    have := Nat.eq_zero_of_dvd_of_lt hdvd (by omega)
    omega

/-- No endpoint of the fixed-team slot reappears in a nonzero slot of the
same round. -/
theorem endpoint_zero_clash {n r i' x : Nat} (hn2 : 2 ≤ n) (hev : n % 2 = 0)
    (hr : r < n - 1) (hz' : i' ≠ 0) (hi' : i' < n / 2)
    (h1 : x = slotHome n r 0 ∨ x = slotAway n r 0)
    (h2 : x = slotHome n r i' ∨ x = slotAway n r i') : False := by
  have hsh : slotHome n r 0 = 0 := by
    unfold slotHome
    rw [if_pos rfl]
  rw [hsh, slotAway_zero hn2 hr] at h1
  have hi1 : 1 ≤ i' := Nat.pos_of_ne_zero hz'
  have hi2 : 2 * i' ≤ n - 2 := by omega
  rcases h1 with rfl | rfl
  · rcases h2 with h2 | h2
    · unfold slotHome at h2
      rw [if_neg hz'] at h2
      omega
    · unfold slotAway at h2
      rw [if_neg hz'] at h2
      omega
  · rcases h2 with h2 | h2
    · unfold slotHome at h2
      rw [if_neg hz'] at h2
      have hmod : Nat.ModEq (n - 1) r (r + (n - 1) - i') := by
        rw [Nat.ModEq, Nat.mod_eq_of_lt hr]
        exact Nat.succ_injective h2
      have hdvd := (Nat.modEq_iff_dvd' (by omega : r ≤ r + (n - 1) - i')).1 hmod
      have he : (r + (n - 1) - i') - r = (n - 1) - i' := by omega
      rw [he] at hdvd
      have := Nat.eq_zero_of_dvd_of_lt hdvd (by omega)
      omega
    · unfold slotAway at h2
      rw [if_neg hz'] at h2
      have hmod : Nat.ModEq (n - 1) r (r + i') := by
        rw [Nat.ModEq, Nat.mod_eq_of_lt hr]
        exact Nat.succ_injective h2
      have hdvd := (Nat.modEq_iff_dvd' (by omega : r ≤ r + i')).1 hmod
      have he : (r + i') - r = i' := by omega
      rw [he] at hdvd
      have := Nat.eq_zero_of_dvd_of_lt hdvd (by omega)
      omega

/-- Within one round, an index occurs in at most one slot. -/
theorem endpoint_inj {n r i i' x : Nat} (hn2 : 2 ≤ n) (hev : n % 2 = 0)
    (hr : r < n - 1) (hi : i < n / 2) (hi' : i' < n / 2)
    (h1 : x = slotHome n r i ∨ x = slotAway n r i)
    (h2 : x = slotHome n r i' ∨ x = slotAway n r i') : i = i' := by
  by_cases hz : i = 0 <;> by_cases hz' : i' = 0
  · exact hz.trans hz'.symm
  · exact absurd (endpoint_zero_clash hn2 hev hr hz' hi' (hz ▸ h1) h2) id
  · exact absurd (endpoint_zero_clash hn2 hev hr hz hi (hz' ▸ h2) h1) id
  · have hi1 : 1 ≤ i := Nat.pos_of_ne_zero hz
    have hi1' : 1 ≤ i' := Nat.pos_of_ne_zero hz'
    have hi2 : 2 * i ≤ n - 2 := by omega
    have hi2' : 2 * i' ≤ n - 2 := by omega
    unfold slotHome slotAway at h1 h2
    rw [if_neg hz, if_neg hz] at h1
    rw [if_neg hz', if_neg hz'] at h2
    rcases h1 with rfl | rfl <;> rcases h2 with h2 | h2
    · -- home = home: i ≡ i'
      have hmod : Nat.ModEq (n - 1) (r + (n - 1) - i) (r + (n - 1) - i') :=
        Nat.succ_injective h2
      rcases Nat.le_total i i' with hle | hle
      · have hdvd := (Nat.modEq_iff_dvd'
          (by omega : r + (n - 1) - i' ≤ r + (n - 1) - i)).1 hmod.symm
        have he : (r + (n - 1) - i) - (r + (n - 1) - i') = i' - i := by omega
        rw [he] at hdvd
        have := Nat.eq_zero_of_dvd_of_lt hdvd (by omega)
        omega
      · have hdvd := (Nat.modEq_iff_dvd'
          (by omega : r + (n - 1) - i ≤ r + (n - 1) - i')).1 hmod
        have he : (r + (n - 1) - i') - (r + (n - 1) - i) = i - i' := by omega
        rw [he] at hdvd
        have := Nat.eq_zero_of_dvd_of_lt hdvd (by omega)
        omega
    · -- home = away: m ∣ m − i − i', impossible
      have hmod : Nat.ModEq (n - 1) (r + (n - 1) - i) (r + i') :=
        Nat.succ_injective h2
      have hdvd := (Nat.modEq_iff_dvd'
        (by omega : r + i' ≤ r + (n - 1) - i)).1 hmod.symm
      have he : (r + (n - 1) - i) - (r + i') = (n - 1) - i - i' := by omega
      rw [he] at hdvd
      have := Nat.eq_zero_of_dvd_of_lt hdvd (by omega)
      omega
    · -- away = home: symmetric
      have hmod : Nat.ModEq (n - 1) (r + i) (r + (n - 1) - i') :=
        Nat.succ_injective h2
      have hdvd := (Nat.modEq_iff_dvd'
        (by omega : r + i ≤ r + (n - 1) - i')).1 hmod
      have he : (r + (n - 1) - i') - (r + i) = (n - 1) - i - i' := by omega
      rw [he] at hdvd
      have := Nat.eq_zero_of_dvd_of_lt hdvd (by omega)
      omega
    · -- away = away: i ≡ i'
      have hmod : Nat.ModEq (n - 1) (r + i) (r + i') := Nat.succ_injective h2
      have := Nat.ModEq.add_left_cancel' r hmod
      exact modeq_of_lt_eq (by omega) (by omega) this

/-- Across the whole first half, an unordered index pair determines its
slot. -/
theorem slot_inj {n r i r' i' : Nat} (hn2 : 2 ≤ n) (hev : n % 2 = 0)
    (hr : r < n - 1) (hi : i < n / 2) (hr' : r' < n - 1) (hi' : i' < n / 2)
    (h : upair (slotHome n r i) (slotAway n r i)
      (slotHome n r' i') (slotAway n r' i')) : r = r' ∧ i = i' := by
  have hsh0 : ∀ rr, slotHome n rr 0 = 0 := fun rr => by
    unfold slotHome
    rw [if_pos rfl]
  by_cases hz : i = 0 <;> by_cases hz' : i' = 0
  · subst hz
    subst hz'
    rw [hsh0 r, hsh0 r', slotAway_zero hn2 hr, slotAway_zero hn2 hr'] at h
    rcases h with ⟨-, h2⟩ | ⟨h1, -⟩ <;> omega
  · exfalso
    subst hz
    have hi1' : 1 ≤ i' := Nat.pos_of_ne_zero hz'
    rw [hsh0 r] at h
    unfold slotHome slotAway at h
    rw [if_neg hz', if_neg hz'] at h
    rcases h with ⟨h1, -⟩ | ⟨h1, -⟩ <;> omega
  · exfalso
    subst hz'
    have hi1 : 1 ≤ i := Nat.pos_of_ne_zero hz
    rw [hsh0 r'] at h
    unfold slotHome slotAway at h
    rw [if_neg hz, if_neg hz] at h
    rcases h with ⟨h1, -⟩ | ⟨-, h2⟩ <;> omega
  · have hi1 : 1 ≤ i := Nat.pos_of_ne_zero hz
    have hi1' : 1 ≤ i' := Nat.pos_of_ne_zero hz'
    have hi2 : 2 * i ≤ n - 2 := by omega
    have hi2' : 2 * i' ≤ n - 2 := by omega
    have hmodd : (n - 1) % 2 = 1 := by omega
    unfold slotHome slotAway at h
    rw [if_neg hz, if_neg hz, if_neg hz', if_neg hz'] at h
    rcases h with ⟨h1, h2⟩ | ⟨h1, h2⟩
    · have mA : Nat.ModEq (n - 1) (r + (n - 1) - i) (r' + (n - 1) - i') :=
        Nat.succ_injective h1
      have mB : Nat.ModEq (n - 1) (r + i) (r' + i') := Nat.succ_injective h2
      have madd := mA.add mB
      have e1 : (r + (n - 1) - i) + (r + i) = 2 * r + (n - 1) := by omega
      have e2 : (r' + (n - 1) - i') + (r' + i') = 2 * r' + (n - 1) := by omega
      rw [e1, e2] at madd
      have hrr : r = r' :=
        modeq_of_lt_eq hr hr'
          (modeq_cancel_two hmodd (Nat.ModEq.add_right_cancel' _ madd))
      subst hrr
      refine ⟨rfl, ?_⟩
      exact modeq_of_lt_eq (by omega) (by omega)
        (Nat.ModEq.add_left_cancel' r mB)
    · have mA : Nat.ModEq (n - 1) (r + (n - 1) - i) (r' + i') :=
        Nat.succ_injective h1
      have mB : Nat.ModEq (n - 1) (r + i) (r' + (n - 1) - i') :=
        Nat.succ_injective h2
      have madd := mA.add mB
      have e1 : (r + (n - 1) - i) + (r + i) = 2 * r + (n - 1) := by omega
      have e2 : (r' + i') + (r' + (n - 1) - i') = 2 * r' + (n - 1) := by omega
      rw [e1, e2] at madd
      have hrr : r = r' :=
        modeq_of_lt_eq hr hr'
          (modeq_cancel_two hmodd (Nat.ModEq.add_right_cancel' _ madd))
      subst hrr
      exfalso
      have e3 : r + (n - 1) - i' = r + ((n - 1) - i') := by omega
      rw [e3] at mB
      have := modeq_of_lt_eq (by omega) (by omega)
        (Nat.ModEq.add_left_cancel' r mB)
      omega

/-- The rotation meets every unordered pair of nonzero labels: in round
`r = (p + q)·2⁻¹ mod m` at offset `±(q − r) mod m`. -/
theorem rotation_pair_exists {m p q : Nat} (hmodd : m % 2 = 1) (hm3 : 3 ≤ m)
    (hpm : p < m) (hqm : q < m) (hpq : p ≠ q) :
    ∃ r d, r < m ∧ 1 ≤ d ∧ 2 * d ≤ m - 1 ∧
      ((r + m - d) % m = p ∧ (r + d) % m = q ∨
        (r + m - d) % m = q ∧ (r + d) % m = p) := by
  set r := ((p + q) * ((m + 1) / 2)) % m with hrdef
  have hrm : r < m := Nat.mod_lt _ (by omega)
  have hkey : Nat.ModEq m (2 * r) (p + q) := by
    have h1 : Nat.ModEq m (2 * r) (2 * ((p + q) * ((m + 1) / 2))) :=
      Nat.ModEq.mul_left 2 (Nat.mod_modEq _ _)
    have h2 : 2 * ((p + q) * ((m + 1) / 2)) = (p + q) * (m + 1) := by
      have he : 2 * ((m + 1) / 2) = m + 1 := by omega
      calc 2 * ((p + q) * ((m + 1) / 2))
          = (p + q) * (2 * ((m + 1) / 2)) := by ring
        _ = (p + q) * (m + 1) := by rw [he]
    have h3 : Nat.ModEq m ((p + q) * (m + 1)) ((p + q) * 1) := by
      refine Nat.ModEq.mul_left _ ?_
      show (m + 1) % m = 1 % m
      rw [Nat.add_mod_left]
    have := (h1.trans (h2 ▸ Nat.ModEq.refl _)).trans h3
    simpa using this
  set d := (q + m - r) % m with hddef
  have hdm : d < m := Nat.mod_lt _ (by omega)
  have hBd : Nat.ModEq m (r + d) q := by
    have h1 : Nat.ModEq m (r + d) (r + (q + m - r)) :=
      Nat.ModEq.add_left r (Nat.mod_modEq _ _)
    have h2 : r + (q + m - r) = q + m := by omega
    rw [h2] at h1
    have h3 : Nat.ModEq m (q + m) q := by
      show (q + m) % m = q % m
      rw [Nat.add_mod_right]
    exact h1.trans h3
  have hd0 : d ≠ 0 := by
    intro h0
    have hq' : Nat.ModEq m r q := by
      have := hBd
      rw [h0, Nat.add_zero] at this
      exact this
    have hrq : r = q := modeq_of_lt_eq hrm hqm hq'
    have h2 : Nat.ModEq m (q + q) (p + q) := by
      have := hkey
      rw [hrq] at this
      simpa [two_mul] using this
    have := Nat.ModEq.add_right_cancel' q h2
    exact hpq (modeq_of_lt_eq hqm hpm this).symm
  have hAd : Nat.ModEq m (r + m - d) p := by
    have hsum : (r + m - d) + (r + d) = 2 * r + m := by omega
    have h1 : Nat.ModEq m ((r + m - d) + (r + d)) (p + q) := by
      rw [hsum]
      have h0 : Nat.ModEq m (2 * r + m) (2 * r) := by
        show (2 * r + m) % m = (2 * r) % m
        rw [Nat.add_mod_right]
      exact h0.trans hkey
    exact Nat.ModEq.add_right_cancel hBd h1
  have hAmod : (r + m - d) % m = p := by
    have := hAd
    rw [Nat.ModEq, Nat.mod_eq_of_lt hpm] at this
    exact this
  have hBmod : (r + d) % m = q := by
    have := hBd
    rw [Nat.ModEq, Nat.mod_eq_of_lt hqm] at this
    exact this
  by_cases hdle : 2 * d ≤ m - 1
  · exact ⟨r, d, hrm, by omega, hdle, Or.inl ⟨hAmod, hBmod⟩⟩
  · have hd2 : m + 1 ≤ 2 * d := by omega
    refine ⟨r, m - d, hrm, by omega, by omega, Or.inr ⟨?_, ?_⟩⟩
    · have he : r + m - (m - d) = r + d := by omega
      rw [he, hBmod]
    · have he : r + (m - d) = r + m - d := by omega
      rw [he, hAmod]

/-- Every unordered pair of distinct indices appears in some in-range
slot. -/
theorem slot_pair_exists {n x y : Nat} (hn2 : 2 ≤ n) (hev : n % 2 = 0)
    (hx : x < n) (hy : y < n) (hxy : x ≠ y) :
    ∃ r i, r < n - 1 ∧ i < n / 2 ∧
      upair (slotHome n r i) (slotAway n r i) x y := by
  by_cases hx0 : x = 0
  · subst hx0
    have hy1 : 1 ≤ y := by omega
    refine ⟨y - 1, 0, by omega, by omega, Or.inl ⟨?_, ?_⟩⟩
    · unfold slotHome
      rw [if_pos rfl]
    · rw [slotAway_zero hn2 (by omega)]
      omega
  · by_cases hy0 : y = 0
    · subst hy0
      have hx1 : 1 ≤ x := by omega
      refine ⟨x - 1, 0, by omega, by omega, Or.inr ⟨?_, ?_⟩⟩
      · unfold slotHome
        rw [if_pos rfl]
      · rw [slotAway_zero hn2 (by omega)]
        omega
    · have hx1 : 1 ≤ x := by omega
      have hy1 : 1 ≤ y := by omega
      have hn4 : 4 ≤ n := by omega
      obtain ⟨r, d, hrm, hd1, hdle, hor⟩ :=
        rotation_pair_exists (m := n - 1) (p := x - 1) (q := y - 1)
          (by omega) (by omega) (by omega) (by omega) (by omega)
      refine ⟨r, d, by omega, by omega, ?_⟩
      have hd0 : ¬(d = 0) := by omega
      rcases hor with ⟨hA, hB⟩ | ⟨hA, hB⟩
      · refine Or.inl ⟨?_, ?_⟩
        · unfold slotHome
          rw [if_neg hd0, hA]
          omega
        · unfold slotAway
          rw [if_neg hd0, hB]
          omega
      · refine Or.inr ⟨?_, ?_⟩
        · unfold slotHome
          rw [if_neg hd0, hA]
          omega
        · unfold slotAway
          rw [if_neg hd0, hB]
          omega

theorem upair_trans {a b c d x y : Nat} (h1 : upair a b x y)
    (h2 : upair c d x y) : upair a b c d := by
  rcases h1 with ⟨rfl, rfl⟩ | ⟨rfl, rfl⟩ <;>
    rcases h2 with ⟨rfl, rfl⟩ | ⟨rfl, rfl⟩ <;>
    first
    | exact Or.inl ⟨rfl, rfl⟩
    | exact Or.inr ⟨rfl, rfl⟩

/-- Exactly one slot of the first half carries a given unordered pair of
distinct indices. -/
theorem slot_pair_card {n x y : Nat} (hn2 : 2 ≤ n) (hev : n % 2 = 0)
    (hx : x < n) (hy : y < n) (hxy : x ≠ y) :
    (((Finset.range (n - 1)) ×ˢ (Finset.range (n / 2))).filter
      (fun ri => upair (slotHome n ri.1 ri.2) (slotAway n ri.1 ri.2) x y)).card
      = 1 := by
  obtain ⟨r0, i0, hr0, hi0, hpair0⟩ := slot_pair_exists hn2 hev hx hy hxy
  rw [Finset.card_eq_one]
  refine ⟨(r0, i0), ?_⟩
  ext ⟨r, i⟩
  simp only [Finset.mem_filter, Finset.mem_product, Finset.mem_range,
    Finset.mem_singleton, Prod.mk.injEq]
  constructor
  · rintro ⟨⟨hr, hi⟩, hp⟩
    exact slot_inj hn2 hev hr hi hr0 hi0 (upair_trans hp hpair0)
  · rintro ⟨rfl, rfl⟩
    exact ⟨⟨hr0, hi0⟩, hpair0⟩

/-- Exactly `n − 1` slots of the first half touch the last index (the BYE
position for an odd original team count): one per possible partner. -/
theorem slot_bye_card {n : Nat} (hn2 : 2 ≤ n) (hev : n % 2 = 0) :
    (((Finset.range (n - 1)) ×ˢ (Finset.range (n / 2))).filter
      (fun ri => slotHome n ri.1 ri.2 = n - 1 ∨ slotAway n ri.1 ri.2 = n - 1)).card
      = n - 1 := by
  have hre : ∀ ri ∈ ((Finset.range (n - 1)) ×ˢ (Finset.range (n / 2))).filter
      (fun ri => slotHome n ri.1 ri.2 = n - 1 ∨ slotAway n ri.1 ri.2 = n - 1),
      (if slotHome n ri.1 ri.2 = n - 1 then slotAway n ri.1 ri.2
        else slotHome n ri.1 ri.2) ∈ Finset.range (n - 1) := by
    rintro ⟨r, i⟩ hri
    rw [Finset.mem_filter, Finset.mem_product, Finset.mem_range,
      Finset.mem_range] at hri
    obtain ⟨⟨hr, hi⟩, hbye⟩ := hri
    have hr' : r < n - 1 := hr
    have hi' : i < n / 2 := hi
    have hne := slotHome_ne_slotAway hn2 hev hr' hi'
    have hh := slotHome_lt (r := r) hn2 hi'
    have ha := slotAway_lt (r := r) hn2 hi'
    rw [Finset.mem_range]
    show (if slotHome n r i = n - 1 then slotAway n r i else slotHome n r i) < n - 1
    by_cases hcase : slotHome n r i = n - 1
    · rw [if_pos hcase]
      have : slotAway n r i ≠ n - 1 := fun he => hne (hcase.trans he.symm)
      omega
    · rw [if_neg hcase]
      omega
  have hcard := Finset.card_eq_sum_card_fiberwise hre
  rw [hcard]
  have hone : ∀ x ∈ Finset.range (n - 1),
      ((((Finset.range (n - 1)) ×ˢ (Finset.range (n / 2))).filter
        (fun ri => slotHome n ri.1 ri.2 = n - 1 ∨ slotAway n ri.1 ri.2 = n - 1)).filter
        (fun ri => (if slotHome n ri.1 ri.2 = n - 1 then slotAway n ri.1 ri.2
          else slotHome n ri.1 ri.2) = x)).card = 1 := by
    intro x hx
    rw [Finset.mem_range] at hx
    rw [Finset.filter_filter]
    have hsets : (((Finset.range (n - 1)) ×ˢ (Finset.range (n / 2))).filter
        (fun ri => (slotHome n ri.1 ri.2 = n - 1 ∨ slotAway n ri.1 ri.2 = n - 1) ∧
          (if slotHome n ri.1 ri.2 = n - 1 then slotAway n ri.1 ri.2
            else slotHome n ri.1 ri.2) = x)) =
        (((Finset.range (n - 1)) ×ˢ (Finset.range (n / 2))).filter
          (fun ri => upair (slotHome n ri.1 ri.2) (slotAway n ri.1 ri.2)
            x (n - 1))) := by
      refine Finset.filter_congr ?_
      rintro ⟨r, i⟩ hri
      rw [Finset.mem_product, Finset.mem_range, Finset.mem_range] at hri
      obtain ⟨hr, hi⟩ := hri
      show ((slotHome n r i = n - 1 ∨ slotAway n r i = n - 1) ∧
          (if slotHome n r i = n - 1 then slotAway n r i else slotHome n r i) = x) ↔
        upair (slotHome n r i) (slotAway n r i) x (n - 1)
      constructor
      · rintro ⟨hbye, hg⟩
        by_cases hcase : slotHome n r i = n - 1
        · rw [if_pos hcase] at hg
          exact Or.inr ⟨hcase, hg⟩
        · rw [if_neg hcase] at hg
          rcases hbye with hbye | hbye
          · exact absurd hbye hcase
          · exact Or.inl ⟨hg, hbye⟩
      · rintro (⟨hh, ha⟩ | ⟨hh, ha⟩)
        · have hcase : ¬(slotHome n r i = n - 1) := by omega
          rw [if_neg hcase]
          exact ⟨Or.inr ha, hh⟩
        · rw [if_pos hh]
          exact ⟨Or.inl hh, ha⟩
    rw [hsets]
    exact slot_pair_card hn2 hev (by omega) (by omega) (by omega)
  rw [Finset.sum_congr rfl hone]
  simp

/-- Each round of the rotation is the slot-function fixture list. -/
theorem generateRoundMatches_eq (teams : List Team) (r : Nat) :
    generateRoundMatches teams r
      = (List.range (teams.length / 2)).map (slotMatch teams r) := by
  unfold generateRoundMatches
  refine List.map_congr_left ?_
  intro i _
  by_cases hz : i = 0
  · subst hz
    simp [slotMatch, slotHomeSw, slotAwaySw, slotHome, slotAway]
  · by_cases hodd : r % 2 = 1
    · simp [slotMatch, slotHomeSw, slotAwaySw, slotHome, slotAway, hz, hodd]
    · simp [slotMatch, slotHomeSw, slotAwaySw, slotHome, slotAway, hz, hodd]

/-- `generateRoundRobinMatches` through the extracted locals. -/
theorem generateRoundRobinMatches_eq (teams0 : List Team) (L : Int)
    (h2 : 2 ≤ teams0.length) :
    generateRoundRobinMatches teams0 L =
      firstHalfMatches (paddedTeams teams0) L
        ++ (firstHalfMatches (paddedTeams teams0) L).map
            (mirrorMatch L ((paddedTeams teams0).length - 1)) := by
  unfold generateRoundRobinMatches firstHalfMatches paddedTeams mirrorMatch
  rw [if_neg (by omega)]

theorem paddedTeams_length (teams0 : List Team) :
    (paddedTeams teams0).length = teams0.length + teams0.length % 2 := by
  unfold paddedTeams
  by_cases h : teams0.length % 2 = 1
  · rw [if_pos h, List.length_append, h]
    rfl
  · rw [if_neg h]
    omega

theorem paddedTeams_even (teams0 : List Team) :
    (paddedTeams teams0).length % 2 = 0 := by
  rw [paddedTeams_length]
  omega

theorem countP_flatMap {α β : Type} (l : List α) (f : α → List β) (p : β → Bool) :
    (l.flatMap f).countP p = (l.map (fun a => (f a).countP p)).sum := by
  induction l with
  | nil => rfl
  | cons a t ih =>
      rw [List.flatMap_cons, List.countP_append, List.map_cons, List.sum_cons, ih]

theorem sum_map_list_range {M : Type} [AddCommMonoid M] (k : Nat) (g : Nat → M) :
    ((List.range k).map g).sum = ∑ i ∈ Finset.range k, g i := by
  induction k with
  | zero => simp
  | succ k ih =>
      rw [List.range_succ, List.map_append, List.sum_append, Finset.sum_range_succ, ih]
      simp

theorem countP_range_eq_card (k : Nat) (p : Nat → Bool) :
    (List.range k).countP p = ((Finset.range k).filter (fun i => p i = true)).card := by
  induction k with
  | zero => rfl
  | succ k ih =>
      rw [List.range_succ, List.countP_append, Finset.range_succ, Finset.filter_insert, ih]
      by_cases hp : p k = true
      · rw [if_pos hp, Finset.card_insert_of_not_mem (by simp)]
        simp [List.countP_cons, hp]
      · rw [if_neg hp]
        simp [List.countP_cons, hp]

theorem card_filter_product_eq (k₁ k₂ : Nat) (p : Nat × Nat → Prop)
    [DecidablePred p] :
    (((Finset.range k₁) ×ˢ (Finset.range k₂)).filter p).card
      = ∑ r ∈ Finset.range k₁,
        ((Finset.range k₂).filter (fun i => p (r, i))).card := by
  rw [Finset.card_filter, Finset.sum_product]
  refine Finset.sum_congr rfl ?_
  intro r _
  rw [Finset.card_filter]

theorem countP_disjoint_add {α : Type} (l : List α) (p q : α → Bool)
    (h : ∀ a ∈ l, ¬(p a = true ∧ q a = true)) :
    l.countP p + l.countP q = l.countP (fun a => p a || q a) := by
  induction l with
  | nil => rfl
  | cons a t ih =>
      have ht : ∀ b ∈ t, ¬(p b = true ∧ q b = true) :=
        fun b hb => h b (List.mem_cons_of_mem a hb)
      rw [List.countP_cons, List.countP_cons, List.countP_cons, ← ih ht]
      by_cases hp : p a = true
      · have hq : ¬ q a = true := fun hq => h a (List.mem_cons_self a t) ⟨hp, hq⟩
        simp [hp, hq]
        omega
      · by_cases hq : q a = true
        · simp [hp, hq]
          omega
        · simp [hp, hq]

theorem countP_add_countP_not {α : Type} (l : List α) (p : α → Bool) :
    l.countP p + l.countP (fun a => !(p a)) = l.length := by
  induction l with
  | nil => rfl
  | cons a t ih =>
      rw [List.countP_cons, List.countP_cons, List.length_cons, ← ih]
      by_cases hp : p a = true
      · simp [hp]
        omega
      · simp [hp]
        omega

theorem getD_id_inj {teams : List Team} (hnd : (teams.map Team.id).Nodup)
    {j j' : Nat} (hj : j < teams.length) (hj' : j' < teams.length)
    (h : (teams.getD j defaultTeam).id = (teams.getD j' defaultTeam).id) :
    j = j' := by
  rw [List.getD_eq_getElem teams defaultTeam hj,
    List.getD_eq_getElem teams defaultTeam hj'] at h
  have hjm : j < (teams.map Team.id).length := by simpa using hj
  have hjm' : j' < (teams.map Team.id).length := by simpa using hj'
  have hmap : (teams.map Team.id)[j] = (teams.map Team.id)[j'] := by
    rw [List.getElem_map, List.getElem_map]
    exact h
  exact (List.Nodup.getElem_inj_iff hnd).1 hmap

/-- The padded team list keeps distinct ids (the BYE id `-1` is fresh). -/
theorem paddedTeams_nodup {teams0 : List Team}
    (hnd : (teams0.map Team.id).Nodup) (hid : ∀ t ∈ teams0, t.id ≠ -1) :
    ((paddedTeams teams0).map Team.id).Nodup := by
  unfold paddedTeams
  by_cases h : teams0.length % 2 = 1
  · rw [if_pos h, List.map_append]
    rw [List.nodup_append]
    refine ⟨hnd, by simp [byeTeam], ?_⟩
    intro x hx hx'
    simp only [List.map_cons, List.map_nil, List.mem_cons, List.not_mem_nil,
      or_false] at hx'
    subst hx'
    obtain ⟨t, ht, hteq⟩ := List.mem_map.1 hx
    exact hid t ht (by simpa [byeTeam] using hteq)
  · rw [if_neg h]
    exact hnd

/-- In the odd case, index `teams0.length` (and only it) holds the BYE id. -/
theorem padded_id_eq_neg_one {teams0 : List Team}
    (hid : ∀ t ∈ teams0, t.id ≠ -1) (hodd : teams0.length % 2 = 1)
    {j : Nat} (hj : j < (paddedTeams teams0).length) :
    (((paddedTeams teams0).getD j defaultTeam).id = -1 ↔ j = teams0.length) := by
  have hlen : (paddedTeams teams0).length = teams0.length + 1 := by
    rw [paddedTeams_length, hodd]
  have hpad : paddedTeams teams0 = teams0 ++ [byeTeam] := by
    unfold paddedTeams
    rw [if_pos hodd]
  rw [hpad]
  constructor
  · intro hneg
    by_contra hne
    have hjlt : j < teams0.length := by
      rw [hlen] at hj
      omega
    rw [List.getD_append _ _ _ _ hjlt,
      List.getD_eq_getElem teams0 defaultTeam hjlt] at hneg
    exact hid _ (List.getElem_mem hjlt) hneg
  · intro hje
    subst hje
    rw [List.getD_append_right _ _ _ _ (Nat.le_refl _), Nat.sub_self]
    rfl

/-- In the even case, no index holds the BYE id. -/
theorem padded_id_ne_neg_one {teams0 : List Team}
    (hid : ∀ t ∈ teams0, t.id ≠ -1) (hev : teams0.length % 2 = 0)
    {j : Nat} (hj : j < (paddedTeams teams0).length) :
    ((paddedTeams teams0).getD j defaultTeam).id ≠ -1 := by
  have hpad : paddedTeams teams0 = teams0 := by
    unfold paddedTeams
    rw [if_neg (by omega)]
  rw [hpad] at hj ⊢
  rw [List.getD_eq_getElem _ defaultTeam hj]
  exact hid _ (List.getElem_mem hj)

theorem slotHomeSw_lt {n r i : Nat} (hn : 2 ≤ n) (hi : i < n / 2) :
    slotHomeSw n r i < n := by
  unfold slotHomeSw
  split_ifs
  · exact slotAway_lt hn hi
  · exact slotHome_lt hn hi

theorem slotAwaySw_lt {n r i : Nat} (hn : 2 ≤ n) (hi : i < n / 2) :
    slotAwaySw n r i < n := by
  unfold slotAwaySw
  split_ifs
  · exact slotHome_lt hn hi
  · exact slotAway_lt hn hi

theorem slotHomeSw_ne_slotAwaySw {n r i : Nat} (hn2 : 2 ≤ n) (hev : n % 2 = 0)
    (hr : r < n - 1) (hi : i < n / 2) :
    slotHomeSw n r i ≠ slotAwaySw n r i := by
  unfold slotHomeSw slotAwaySw
  split_ifs
  · exact fun h => slotHome_ne_slotAway hn2 hev hr hi h.symm
  · exact slotHome_ne_slotAway hn2 hev hr hi

/-- The odd-round swap does not change the unordered slot pair. -/
theorem upair_sw (n r i x y : Nat) :
    upair (slotHomeSw n r i) (slotAwaySw n r i) x y
      ↔ upair (slotHome n r i) (slotAway n r i) x y := by
  unfold slotHomeSw slotAwaySw
  split_ifs
  · constructor
    · rintro (⟨h1, h2⟩ | ⟨h1, h2⟩)
      · exact Or.inr ⟨h2, h1⟩
      · exact Or.inl ⟨h2, h1⟩
    · rintro (⟨h1, h2⟩ | ⟨h1, h2⟩)
      · exact Or.inr ⟨h2, h1⟩
      · exact Or.inl ⟨h2, h1⟩
  · exact Iff.rfl

/-- One filtered and relabelled round counts an ordered index pair of real
teams exactly as often as the slot functions hit that pair. -/
theorem round_countP_pair (teams : List Team) (L : Int) (r jx jy : Nat)
    (hn : 2 ≤ teams.length)
    (hnd : (teams.map Team.id).Nodup)
    (hjx : jx < teams.length) (hjy : jy < teams.length)
    (hidx : (teams.getD jx defaultTeam).id ≠ -1)
    (hidy : (teams.getD jy defaultTeam).id ≠ -1) :
    (((generateRoundMatches teams r).filter
        (fun m => ¬(m.homeTeamID = -1 ∨ m.awayTeamID = -1))).map
      (fun m => { m with leagueID := L, week := r + 1, status := "scheduled" })).countP
        (fun m => m.homeTeamID = (teams.getD jx defaultTeam).id ∧
          m.awayTeamID = (teams.getD jy defaultTeam).id)
      = (List.range (teams.length / 2)).countP
          (fun i => slotHomeSw teams.length r i = jx
            ∧ slotAwaySw teams.length r i = jy) := by
  rw [List.countP_map, List.countP_filter, generateRoundMatches_eq, List.countP_map]
  refine List.countP_congr ?_
  intro i hi
  rw [List.mem_range] at hi
  have h1 := slotHomeSw_lt (r := r) hn hi
  have h2 := slotAwaySw_lt (r := r) hn hi
  simp only [Function.comp_apply, slotMatch, Bool.and_eq_true, decide_eq_true_eq]
  constructor
  · rintro ⟨⟨e1, e2⟩, -⟩
    exact ⟨getD_id_inj hnd h1 hjx e1, getD_id_inj hnd h2 hjy e2⟩
  · rintro ⟨e1, e2⟩
    refine ⟨⟨?_, ?_⟩, ?_⟩
    · rw [e1]
    · rw [e2]
    · rw [e1, e2]
      exact fun h => h.elim hidx hidy

theorem sum_card_filter_slots (k₁ k₂ : Nat) (p : Nat → Nat → Prop)
    [∀ r i, Decidable (p r i)] :
    ∑ r ∈ Finset.range k₁, ((Finset.range k₂).filter (fun i => p r i)).card
      = (((Finset.range k₁) ×ˢ (Finset.range k₂)).filter
          (fun ri => p ri.1 ri.2)).card := by
  rw [Finset.card_filter, Finset.sum_product]
  refine Finset.sum_congr rfl ?_
  intro r _
  rw [Finset.card_filter]

/-- Per round, the two ordered slot counts of a pair add up to the number of
slots meeting the unordered pair. -/
theorem slot_count_to_card (n r jx jy : Nat) (hne : jx ≠ jy) :
    (List.range (n / 2)).countP
        (fun i => slotHomeSw n r i = jx ∧ slotAwaySw n r i = jy)
      + (List.range (n / 2)).countP
        (fun i => slotHomeSw n r i = jy ∧ slotAwaySw n r i = jx)
      = ((Finset.range (n / 2)).filter
          (fun i => upair (slotHome n r i) (slotAway n r i) jx jy)).card := by
  rw [countP_disjoint_add]
  · have hcongr : (List.range (n / 2)).countP
        (fun i => (decide (slotHomeSw n r i = jx ∧ slotAwaySw n r i = jy)
          || decide (slotHomeSw n r i = jy ∧ slotAwaySw n r i = jx)))
        = (List.range (n / 2)).countP
          (fun i => upair (slotHome n r i) (slotAway n r i) jx jy) := by
      refine List.countP_congr ?_
      intro i _
      simp only [Bool.or_eq_true, decide_eq_true_eq]
      exact upair_sw n r i jx jy
    rw [hcongr, countP_range_eq_card]
    have hfe : (Finset.range (n / 2)).filter
          (fun i => (decide (upair (slotHome n r i) (slotAway n r i) jx jy)) = true)
        = (Finset.range (n / 2)).filter
          (fun i => upair (slotHome n r i) (slotAway n r i) jx jy) := by
      refine Finset.filter_congr ?_
      intro i _
      simp
    rw [hfe]
  · intro i _
    simp only [decide_eq_true_eq]
    rintro ⟨⟨e1, -⟩, ⟨f1, -⟩⟩
    exact hne (e1.symm.trans f1)

/-- Across the first half, an ordered pair of distinct real teams appears in
the two directions a total of exactly once. -/
theorem firstHalf_countP_pair (teams : List Team) (L : Int) (jx jy : Nat)
    (hn2 : 2 ≤ teams.length) (hev : teams.length % 2 = 0)
    (hnd : (teams.map Team.id).Nodup)
    (hjx : jx < teams.length) (hjy : jy < teams.length) (hne : jx ≠ jy)
    (hidx : (teams.getD jx defaultTeam).id ≠ -1)
    (hidy : (teams.getD jy defaultTeam).id ≠ -1) :
    (firstHalfMatches teams L).countP
        (fun m => m.homeTeamID = (teams.getD jx defaultTeam).id ∧
          m.awayTeamID = (teams.getD jy defaultTeam).id)
      + (firstHalfMatches teams L).countP
        (fun m => m.homeTeamID = (teams.getD jy defaultTeam).id ∧
          m.awayTeamID = (teams.getD jx defaultTeam).id) = 1 := by
  unfold firstHalfMatches
  rw [countP_flatMap, countP_flatMap, sum_map_list_range, sum_map_list_range,
    ← Finset.sum_add_distrib]
  have htot : ∑ r ∈ Finset.range (teams.length - 1),
      ((Finset.range (teams.length / 2)).filter
        (fun i => upair (slotHome teams.length r i) (slotAway teams.length r i)
          jx jy)).card = 1 := by
    rw [sum_card_filter_slots]
    exact slot_pair_card hn2 hev hjx hjy hne
  refine Eq.trans (Finset.sum_congr rfl ?_) htot
  intro r _
  rw [round_countP_pair teams L r jx jy hn2 hnd hjx hjy hidx hidy,
    round_countP_pair teams L r jy jx hn2 hnd hjy hjx hidy hidx]
  exact slot_count_to_card teams.length r jx jy hne

/-- In the full double round-robin, every ordered pair of distinct real
teams appears exactly once (by indices in the padded list). -/
theorem schedule_countP_pair (teams : List Team) (L : Int) (jx jy : Nat)
    (hn2 : 2 ≤ teams.length) (hev : teams.length % 2 = 0)
    (hnd : (teams.map Team.id).Nodup)
    (hjx : jx < teams.length) (hjy : jy < teams.length) (hne : jx ≠ jy)
    (hidx : (teams.getD jx defaultTeam).id ≠ -1)
    (hidy : (teams.getD jy defaultTeam).id ≠ -1) :
    (firstHalfMatches teams L
      ++ (firstHalfMatches teams L).map (mirrorMatch L (teams.length - 1))).countP
      (fun m => m.homeTeamID = (teams.getD jx defaultTeam).id ∧
        m.awayTeamID = (teams.getD jy defaultTeam).id) = 1 := by
  rw [List.countP_append, List.countP_map]
  have hc : (firstHalfMatches teams L).countP
      ((fun m => decide (m.homeTeamID = (teams.getD jx defaultTeam).id ∧
        m.awayTeamID = (teams.getD jy defaultTeam).id))
        ∘ mirrorMatch L (teams.length - 1))
      = (firstHalfMatches teams L).countP
        (fun m => m.homeTeamID = (teams.getD jy defaultTeam).id ∧
          m.awayTeamID = (teams.getD jx defaultTeam).id) := by
    refine List.countP_congr ?_
    intro m _
    simp only [Function.comp_apply, mirrorMatch, decide_eq_true_eq]
    constructor
    · rintro ⟨h1, h2⟩
      exact ⟨h2, h1⟩
    · rintro ⟨h1, h2⟩
      exact ⟨h2, h1⟩
  rw [hc]
  exact firstHalf_countP_pair teams L jx jy hn2 hev hnd hjx hjy hne hidx hidy

/-- First-half length plus the number of BYE slots equals the number of
slots of the rotation. -/
theorem firstHalf_length_add_byes (teams : List Team) (L : Int) :
    (firstHalfMatches teams L).length
      + ((List.range (teams.length - 1)).map (fun r =>
          (generateRoundMatches teams r).countP
            (fun m => m.homeTeamID = -1 ∨ m.awayTeamID = -1))).sum
      = (teams.length - 1) * (teams.length / 2) := by
  unfold firstHalfMatches
  rw [List.length_flatMap]
  simp only [Function.comp_def]
  have hpt : ∀ r ∈ List.range (teams.length - 1),
      (((generateRoundMatches teams r).filter
          (fun m => ¬(m.homeTeamID = -1 ∨ m.awayTeamID = -1))).map
        (fun m => { m with leagueID := L, week := r + 1, status := "scheduled" })).length
      = (generateRoundMatches teams r).countP
          (fun m => ¬(m.homeTeamID = -1 ∨ m.awayTeamID = -1)) := by
    intro r _
    rw [List.length_map, ← List.countP_eq_length_filter]
  rw [List.map_congr_left hpt, sum_map_list_range, sum_map_list_range,
    ← Finset.sum_add_distrib]
  have hpt2 : ∀ r ∈ Finset.range (teams.length - 1),
      (generateRoundMatches teams r).countP
          (fun m => ¬(m.homeTeamID = -1 ∨ m.awayTeamID = -1))
        + (generateRoundMatches teams r).countP
          (fun m => m.homeTeamID = -1 ∨ m.awayTeamID = -1)
      = teams.length / 2 := by
    intro r _
    have hb : (generateRoundMatches teams r).countP
        (fun m => m.homeTeamID = -1 ∨ m.awayTeamID = -1)
        = (generateRoundMatches teams r).countP
          (fun m => !(decide ¬(m.homeTeamID = -1 ∨ m.awayTeamID = -1))) := by
      refine List.countP_congr ?_
      intro m _
      simp
    rw [hb, countP_add_countP_not, generateRoundMatches_eq, List.length_map,
      List.length_range]
  rw [Finset.sum_congr rfl hpt2, Finset.sum_const, Finset.card_range,
    smul_eq_mul]

/-- With no BYE id in the list, no generated fixture is a BYE fixture. -/
theorem byes_count_zero (teams : List Team) (r : Nat) (hn : 2 ≤ teams.length)
    (hid : ∀ j, j < teams.length → (teams.getD j defaultTeam).id ≠ -1) :
    (generateRoundMatches teams r).countP
      (fun m => m.homeTeamID = -1 ∨ m.awayTeamID = -1) = 0 := by
  rw [generateRoundMatches_eq, List.countP_map, List.countP_eq_zero]
  intro i hi
  rw [List.mem_range] at hi
  simp only [Function.comp_apply, slotMatch, decide_eq_true_eq]
  rintro (h | h)
  · exact hid _ (slotHomeSw_lt hn hi) h
  · exact hid _ (slotAwaySw_lt hn hi) h

/-- With the BYE at the last index, the first half contains one BYE slot per
possible opponent. -/
theorem byes_count_odd (teams : List Team) (hn2 : 2 ≤ teams.length)
    (hev : teams.length % 2 = 0)
    (hbye : ∀ j, j < teams.length →
      (((teams.getD j defaultTeam).id = -1) ↔ j = teams.length - 1)) :
    ((List.range (teams.length - 1)).map (fun r =>
        (generateRoundMatches teams r).countP
          (fun m => m.homeTeamID = -1 ∨ m.awayTeamID = -1))).sum
      = teams.length - 1 := by
  rw [sum_map_list_range]
  have hpt : ∀ r ∈ Finset.range (teams.length - 1),
      (generateRoundMatches teams r).countP
        (fun m => m.homeTeamID = -1 ∨ m.awayTeamID = -1)
      = ((Finset.range (teams.length / 2)).filter
          (fun i => slotHome teams.length r i = teams.length - 1
            ∨ slotAway teams.length r i = teams.length - 1)).card := by
    intro r _
    rw [generateRoundMatches_eq, List.countP_map]
    have hcongr : (List.range (teams.length / 2)).countP
        ((fun m => decide (m.homeTeamID = -1 ∨ m.awayTeamID = -1))
          ∘ slotMatch teams r)
        = (List.range (teams.length / 2)).countP
          (fun i => slotHome teams.length r i = teams.length - 1
            ∨ slotAway teams.length r i = teams.length - 1) := by
      refine List.countP_congr ?_
      intro i hi
      rw [List.mem_range] at hi
      simp only [Function.comp_apply, slotMatch, decide_eq_true_eq]
      rw [hbye _ (slotHomeSw_lt hn2 hi), hbye _ (slotAwaySw_lt hn2 hi)]
      unfold slotHomeSw slotAwaySw
      split_ifs
      · exact or_comm
      · exact Iff.rfl
    rw [hcongr, countP_range_eq_card]
    refine congrArg Finset.card (Finset.filter_congr ?_)
    intro i _
    simp
  rw [Finset.sum_congr rfl hpt, sum_card_filter_slots]
  exact slot_bye_card hn2 hev

theorem even_length_arith (N fh : Nat) (h2 : 2 ≤ N) (hev : N % 2 = 0)
    (h : fh = (N - 1) * (N / 2)) : fh + fh = N * (N - 1) := by
  obtain ⟨K, rfl⟩ : ∃ K, N = 2 * K := ⟨N / 2, by omega⟩
  subst h
  obtain ⟨K', rfl⟩ : ∃ K', K = K' + 1 := ⟨K - 1, by omega⟩
  have e1 : 2 * (K' + 1) / 2 = K' + 1 := by omega
  have e2 : 2 * (K' + 1) - 1 = 2 * K' + 1 := by omega
  rw [e1, e2]
  ring

theorem odd_length_arith (N fh : Nat) (h2 : 2 ≤ N) (hodd : N % 2 = 1)
    (h : fh + N = N * ((N + 1) / 2)) : fh + fh = N * (N - 1) := by
  obtain ⟨K, rfl⟩ : ∃ K, N = 2 * K + 1 := ⟨N / 2, by omega⟩
  have e1 : (2 * K + 1 + 1) / 2 = K + 1 := by omega
  rw [e1] at h
  have e2 : (2 * K + 1) * (K + 1) = (2 * K + 1) * K + (2 * K + 1) := by ring
  have e3 : fh = (2 * K + 1) * K := by omega
  subst e3
  have e4 : 2 * K + 1 - 1 = 2 * K := by omega
  rw [e4]
  ring

/-- The generated double round-robin has exactly `N * (N - 1)` fixtures. -/
theorem schedule_length (teams0 : List Team) (L : Int) (h2 : 2 ≤ teams0.length)
    (hid : ∀ t ∈ teams0, t.id ≠ -1) :
    (generateRoundRobinMatches teams0 L).length
      = teams0.length * (teams0.length - 1) := by
  rw [generateRoundRobinMatches_eq teams0 L h2, List.length_append, List.length_map]
  have hfh := firstHalf_length_add_byes (paddedTeams teams0) L
  by_cases hodd : teams0.length % 2 = 1
  · have hlen : (paddedTeams teams0).length = teams0.length + 1 := by
      rw [paddedTeams_length, hodd]
    have hby := byes_count_odd (paddedTeams teams0) (by omega)
      (paddedTeams_even teams0) ?_
    · rw [hby, hlen] at hfh
      refine odd_length_arith teams0.length _ h2 hodd ?_
      have e1 : teams0.length + 1 - 1 = teams0.length := by omega
      rw [e1] at hfh
      exact hfh
    · intro j hj
      rw [hlen]
      have e1 : teams0.length + 1 - 1 = teams0.length := by omega
      rw [e1]
      exact padded_id_eq_neg_one hid hodd hj
  · have hlen : (paddedTeams teams0).length = teams0.length := by
      rw [paddedTeams_length]
      omega
    have hby : ((List.range ((paddedTeams teams0).length - 1)).map (fun r =>
        (generateRoundMatches (paddedTeams teams0) r).countP
          (fun m => m.homeTeamID = -1 ∨ m.awayTeamID = -1))).sum = 0 := by
      refine List.sum_eq_zero ?_
      intro x hx
      obtain ⟨r, _, hr⟩ := List.mem_map.1 hx
      rw [← hr]
      exact byes_count_zero (paddedTeams teams0) r (by omega)
        (fun j hj => padded_id_ne_neg_one hid (by omega) hj)
    rw [hby, Nat.add_zero, hlen] at hfh
    exact even_length_arith teams0.length _ h2 (by omega) hfh

/-- First-half fixtures carry weeks `1 .. n-1`. -/
theorem firstHalf_week_bounds (teams : List Team) (L : Int) (m : MatchRec)
    (hm : m ∈ firstHalfMatches teams L) :
    1 ≤ m.week ∧ m.week ≤ teams.length - 1 := by
  unfold firstHalfMatches at hm
  rw [List.mem_flatMap] at hm
  obtain ⟨r, hr, hmr⟩ := hm
  rw [List.mem_range] at hr
  rw [List.mem_map] at hmr
  obtain ⟨m', _, hm'⟩ := hmr
  subst hm'
  change 1 ≤ r + 1 ∧ r + 1 ≤ teams.length - 1
  omega

/-- A slot whose two teams are real produces a first-half fixture of its
round's week. -/
theorem mem_firstHalf_of_slot (teams : List Team) (L : Int) (r i : Nat)
    (hr : r < teams.length - 1) (hi : i < teams.length / 2)
    (hhb : (teams.getD (slotHomeSw teams.length r i) defaultTeam).id ≠ -1)
    (hab : (teams.getD (slotAwaySw teams.length r i) defaultTeam).id ≠ -1) :
    ∃ m ∈ firstHalfMatches teams L, m.week = r + 1 := by
  refine ⟨{ slotMatch teams r i with leagueID := L, week := r + 1, status := "scheduled" },
    ?_, rfl⟩
  unfold firstHalfMatches
  rw [List.mem_flatMap]
  refine ⟨r, List.mem_range.2 hr, ?_⟩
  rw [List.mem_map]
  refine ⟨slotMatch teams r i, ?_, rfl⟩
  rw [List.mem_filter]
  refine ⟨?_, ?_⟩
  · rw [generateRoundMatches_eq]
    exact List.mem_map.2 ⟨i, List.mem_range.2 hi, rfl⟩
  · simp only [slotMatch, decide_eq_true_eq]
    rintro (h | h)
    · exact hhb h
    · exact hab h

/-- Every week `1 .. n-1` is occupied by some first-half fixture. -/
theorem firstHalf_week_occupied (teams0 : List Team) (L : Int)
    (h2 : 2 ≤ teams0.length) (hid : ∀ t ∈ teams0, t.id ≠ -1)
    (w : Nat) (hw1 : 1 ≤ w) (hw2 : w ≤ (paddedTeams teams0).length - 1) :
    ∃ m ∈ firstHalfMatches (paddedTeams teams0) L, m.week = w := by
  have hlen := paddedTeams_length teams0
  have hev := paddedTeams_even teams0
  have hn2 : 2 ≤ (paddedTeams teams0).length := by omega
  have hr : w - 1 < (paddedTeams teams0).length - 1 := by omega
  have hi0 : 0 < (paddedTeams teams0).length / 2 := by omega
  have hsw0 : ∀ rr, slotHomeSw (paddedTeams teams0).length rr 0
      = slotHome (paddedTeams teams0).length rr 0 := by
    intro rr
    unfold slotHomeSw
    rw [if_neg (by simp)]
  have hsw0' : ∀ rr, slotAwaySw (paddedTeams teams0).length rr 0
      = slotAway (paddedTeams teams0).length rr 0 := by
    intro rr
    unfold slotAwaySw
    rw [if_neg (by simp)]
  have hsh0 : slotHome (paddedTeams teams0).length (w - 1) 0 = 0 := by
    unfold slotHome
    rw [if_pos rfl]
  by_cases hodd : teams0.length % 2 = 1
  · -- odd original count: the BYE sits at the last index
    have hlen1 : (paddedTeams teams0).length = teams0.length + 1 := by omega
    have hbyechar : ∀ j, j < (paddedTeams teams0).length →
        (((paddedTeams teams0).getD j defaultTeam).id = -1
          ↔ j = (paddedTeams teams0).length - 1) := by
      intro j hj
      have e1 : (paddedTeams teams0).length - 1 = teams0.length := by omega
      rw [e1]
      exact padded_id_eq_neg_one hid hodd hj
    have hn4 : 4 ≤ (paddedTeams teams0).length := by omega
    by_cases hanchor : slotAway (paddedTeams teams0).length (w - 1) 0
        = (paddedTeams teams0).length - 1
    · -- the anchor slot is the BYE fixture this round: use slot 1 instead
      have hi1 : 1 < (paddedTeams teams0).length / 2 := by omega
      have hh1 : slotHome (paddedTeams teams0).length (w - 1) 1
          ≠ (paddedTeams teams0).length - 1 := by
        intro he
        have := endpoint_inj hn2 hev hr hi1 hi0
          (Or.inl he.symm) (Or.inr hanchor.symm)
        omega
      have ha1 : slotAway (paddedTeams teams0).length (w - 1) 1
          ≠ (paddedTeams teams0).length - 1 := by
        intro he
        have := endpoint_inj hn2 hev hr hi1 hi0
          (Or.inr he.symm) (Or.inr hanchor.symm)
        omega
      have hhsw : slotHomeSw (paddedTeams teams0).length (w - 1) 1
          ≠ (paddedTeams teams0).length - 1 := by
        unfold slotHomeSw
        split_ifs
        · exact ha1
        · exact hh1
      have hasw : slotAwaySw (paddedTeams teams0).length (w - 1) 1
          ≠ (paddedTeams teams0).length - 1 := by
        unfold slotAwaySw
        split_ifs
        · exact hh1
        · exact ha1
      obtain ⟨m, hm, hwk⟩ := mem_firstHalf_of_slot (paddedTeams teams0) L (w - 1) 1
        hr hi1
        (fun he => hhsw ((hbyechar _ (slotHomeSw_lt hn2 hi1)).1 he))
        (fun he => hasw ((hbyechar _ (slotAwaySw_lt hn2 hi1)).1 he))
      refine ⟨m, hm, ?_⟩
      omega
    · -- the anchor slot is a real fixture
      obtain ⟨m, hm, hwk⟩ := mem_firstHalf_of_slot (paddedTeams teams0) L (w - 1) 0
        hr hi0
        (fun he => by
          have := (hbyechar _ (slotHomeSw_lt hn2 hi0)).1 he
          rw [hsw0, hsh0] at this
          omega)
        (fun he => by
          have := (hbyechar _ (slotAwaySw_lt hn2 hi0)).1 he
          rw [hsw0'] at this
          exact hanchor this)
      refine ⟨m, hm, ?_⟩
      omega
  · -- even original count: no BYE anywhere, the anchor slot always works
    have hall : ∀ j, j < (paddedTeams teams0).length →
        ((paddedTeams teams0).getD j defaultTeam).id ≠ -1 :=
      fun j hj => padded_id_ne_neg_one hid (by omega) hj
    obtain ⟨m, hm, hwk⟩ := mem_firstHalf_of_slot (paddedTeams teams0) L (w - 1) 0
      hr hi0 (hall _ (slotHomeSw_lt hn2 hi0)) (hall _ (slotAwaySw_lt hn2 hi0))
    refine ⟨m, hm, ?_⟩
    omega

/-- Every fixture's week lies in `1 .. 2*(n-1)` (padded count `n`). -/
theorem schedule_week_bounds (teams0 : List Team) (L : Int)
    (h2 : 2 ≤ teams0.length) (m : MatchRec)
    (hm : m ∈ generateRoundRobinMatches teams0 L) :
    1 ≤ m.week ∧ m.week ≤ 2 * ((paddedTeams teams0).length - 1) := by
  rw [generateRoundRobinMatches_eq teams0 L h2] at hm
  rcases List.mem_append.1 hm with hm | hm
  · have := firstHalf_week_bounds _ _ _ hm
    omega
  · obtain ⟨m', hm', he⟩ := List.mem_map.1 hm
    have := firstHalf_week_bounds _ _ _ hm'
    subst he
    change 1 ≤ m'.week + ((paddedTeams teams0).length - 1)
      ∧ m'.week + ((paddedTeams teams0).length - 1)
        ≤ 2 * ((paddedTeams teams0).length - 1)
    omega

/-- Every week `1 .. 2*(n-1)` is occupied (padded count `n`). -/
theorem schedule_week_occupied (teams0 : List Team) (L : Int)
    (h2 : 2 ≤ teams0.length) (hid : ∀ t ∈ teams0, t.id ≠ -1)
    (w : Nat) (hw1 : 1 ≤ w) (hw2 : w ≤ 2 * ((paddedTeams teams0).length - 1)) :
    ∃ m ∈ generateRoundRobinMatches teams0 L, m.week = w := by
  rw [generateRoundRobinMatches_eq teams0 L h2]
  have hlen := paddedTeams_length teams0
  by_cases hw : w ≤ (paddedTeams teams0).length - 1
  · obtain ⟨m, hm, hwk⟩ := firstHalf_week_occupied teams0 L h2 hid w hw1 hw
    exact ⟨m, List.mem_append_left _ hm, hwk⟩
  · obtain ⟨m, hm, hwk⟩ := firstHalf_week_occupied teams0 L h2 hid
      (w - ((paddedTeams teams0).length - 1)) (by omega) (by omega)
    refine ⟨mirrorMatch L ((paddedTeams teams0).length - 1) m,
      List.mem_append_right _ (List.mem_map.2 ⟨m, hm, rfl⟩), ?_⟩
    change m.week + ((paddedTeams teams0).length - 1) = w
    omega

/-- C1 (amended): for any list of `N ≥ 2` teams with pairwise distinct ids,
none equal to the BYE marker `-1`, the generated schedule has exactly
`N*(N-1)` fixtures; every ordered pair of distinct teams appears exactly once
as (home, away) — so every unordered pair appears exactly twice, once in each
direction; and the schedule spans exactly the weeks `1 .. 2*(n-1)` where
`n = N + N % 2` — that is `2*(N-1)` weeks for even `N` but `2*N` weeks for
odd `N`, not the claimed `2*(N-1)`. -/
theorem generateRoundRobin_spec (teams0 : List Team) (L : Int)
    (hN : 2 ≤ teams0.length)
    (hnd : (teams0.map Team.id).Nodup)
    (hid : ∀ t ∈ teams0, t.id ≠ -1) :
    (generateRoundRobinMatches teams0 L).length
        = teams0.length * (teams0.length - 1)
      ∧ (∀ a ∈ teams0, ∀ b ∈ teams0, a.id ≠ b.id →
          (generateRoundRobinMatches teams0 L).countP
            (fun m => m.homeTeamID = a.id ∧ m.awayTeamID = b.id) = 1)
      ∧ (∀ m ∈ generateRoundRobinMatches teams0 L,
          1 ≤ m.week ∧ m.week ≤ 2 * (teams0.length + teams0.length % 2 - 1))
      ∧ (∀ w, 1 ≤ w → w ≤ 2 * (teams0.length + teams0.length % 2 - 1) →
          ∃ m ∈ generateRoundRobinMatches teams0 L, m.week = w) := by
  have hlen := paddedTeams_length teams0
  have hn2 : 2 ≤ (paddedTeams teams0).length := by omega
  have hev := paddedTeams_even teams0
  have hndp := paddedTeams_nodup hnd hid
  refine ⟨schedule_length teams0 L hN hid, ?_, ?_, ?_⟩
  · intro a ha b hb hne
    have hmem_a : a ∈ paddedTeams teams0 := by
      unfold paddedTeams
      split_ifs
      · exact List.mem_append_left _ ha
      · exact ha
    have hmem_b : b ∈ paddedTeams teams0 := by
      unfold paddedTeams
      split_ifs
      · exact List.mem_append_left _ hb
      · exact hb
    obtain ⟨jx, hjx, hja⟩ := List.getElem_of_mem hmem_a
    obtain ⟨jy, hjy, hjb⟩ := List.getElem_of_mem hmem_b
    have hga : (paddedTeams teams0).getD jx defaultTeam = a := by
      rw [List.getD_eq_getElem _ _ hjx, hja]
    have hgb : (paddedTeams teams0).getD jy defaultTeam = b := by
      rw [List.getD_eq_getElem _ _ hjy, hjb]
    have hnexy : jx ≠ jy := by
      intro he
      subst he
      rw [hga] at hgb
      exact hne (by rw [hgb])
    have hcount := schedule_countP_pair (paddedTeams teams0) L jx jy hn2 hev
      hndp hjx hjy hnexy
      (by rw [hga]; exact hid a ha) (by rw [hgb]; exact hid b hb)
    rw [hga, hgb] at hcount
    rw [generateRoundRobinMatches_eq teams0 L hN]
    exact hcount
  · intro m hm
    have := schedule_week_bounds teams0 L hN m hm
    omega
  · intro w hw1 hw2
    exact schedule_week_occupied teams0 L hN hid w hw1 (by omega)

/-- C1 counterexample: with `N = 3` teams the generated schedule has fixtures
beyond week `2*(N-1) = 4` (the BYE rounds stretch it to week `2*N = 6`), so
the claimed total of `2*(N-1)` weeks is wrong for odd team counts. -/
theorem roundRobin_weeks_counterexample :
    2 ≤ teamsOdd.length ∧
    (teamsOdd.map Team.id).Nodup ∧
    (∀ t ∈ teamsOdd, t.id ≠ -1) ∧
    ¬ (∀ m ∈ generateRoundRobinMatches teamsOdd 1,
        m.week ≤ 2 * (teamsOdd.length - 1)) := by
  decide

/-- Witness: the amended C1 theorem at a concrete list of four teams. -/
theorem generateRoundRobin_spec_witness :
    (generateRoundRobinMatches teamsEven 1).length
        = teamsEven.length * (teamsEven.length - 1)
      ∧ (∀ a ∈ teamsEven, ∀ b ∈ teamsEven, a.id ≠ b.id →
          (generateRoundRobinMatches teamsEven 1).countP
            (fun m => m.homeTeamID = a.id ∧ m.awayTeamID = b.id) = 1)
      ∧ (∀ m ∈ generateRoundRobinMatches teamsEven 1,
          1 ≤ m.week ∧ m.week ≤ 2 * (teamsEven.length + teamsEven.length % 2 - 1))
      ∧ (∀ w, 1 ≤ w → w ≤ 2 * (teamsEven.length + teamsEven.length % 2 - 1) →
          ∃ m ∈ generateRoundRobinMatches teamsEven 1, m.week = w) :=
  generateRoundRobin_spec teamsEven 1 (by decide) (by decide) (by decide)

end InsiderLeague
